import Mathlib

/-!
Verification development for the go-gecko event-dispatch engine.

The definitions below are a shallow embedding of `engine.go`: the per-event
session model, topic routing, the three stage handlers
(`handleInterceptor`, `handleDriver`, `handleOutput`), panic recovery
(`checkRecover`), the trigger invoker (`prepareEnv`), and the component
lifecycle order (`Start` / `Stop`).  Machine time is modelled as a `Nat`
clock that advances by one tick per component invocation.  Stage handlers
emit an event trace (`Ev`) recording component invocations, queue sends,
log records and attribute writes, so that ordering properties of the Go
control flow become statements about traces.
-/

namespace Gecko

/-- A dynamic value stored in an inbound/outbound data mapping
(`map[string]interface\x7b\x7d` in the source, restricted to the value shapes
the engine itself produces or inspects). -/
inductive GVal where
  | s (v : String)
  | n (v : Nat)
deriving DecidableEq, Repr

/-- A session-attribute value.  The engine stores either an absolute
timestamp (`time.Now()`) or an elapsed duration (`session.Escaped()`);
components may store other values. -/
inductive AttrVal where
  | time (t : Nat)
  | dur (d : Nat)
  | val (g : GVal)
deriving DecidableEq, Repr

/-- `Inbound` from the source: the immutable event capture. -/
structure Inbound where
  topic : String
  data : List (String × GVal)
deriving DecidableEq, Repr

/-- `Outbound` from the source: topic plus a mutable result-field mapping. -/
structure Outbound where
  topic : String
  data : List (String × GVal)
deriving DecidableEq, Repr

/-- `sessionImpl` from the source (`contextId` is always 0 and the
completion callback is externalised into the output-stage trace, so both
are omitted; the attribute lock is a concurrency artefact with no
sequential content). -/
structure Session where
  timestamp : Nat
  attributes : List (String × AttrVal)
  topic : String
  inbound : Inbound
  outbound : Outbound
deriving DecidableEq, Repr

/-- `Session.AddAttribute`: attribute writes only ever add entries. -/
def addAttr (s : Session) (k : String) (v : AttrVal) : Session :=
  { s with attributes := s.attributes ++ [(k, v)] }

/-- Map update for `Outbound.AddDataField`: set a key in an association
list, replacing an existing binding or appending a new one. -/
def setField : List (String × GVal) → String → GVal → List (String × GVal)
  | [], k, v => [(k, v)]
  | (k', v') :: rest, k, v =>
    if k' = k then (k, v) :: rest else (k', v') :: setField rest k v

/-- Map lookup on an outbound data mapping. -/
def lookupF : List (String × GVal) → String → Option GVal
  | [], _ => none
  | (k', v') :: rest, k => if k' = k then some v' else lookupF rest k

/-- The mutations a component may perform through the `Session` interface:
attribute additions and outbound data-field writes.  The interface exposes
no removal operations. -/
structure Effect where
  attrs : List (String × AttrVal)
  fields : List (String × GVal)

/-- An effect that performs no mutation. -/
def noEffect : Effect := ⟨[], []⟩

/-- Apply a component's session mutations. -/
def applyEffect (s : Session) (e : Effect) : Session :=
  { s with
    attributes := s.attributes ++ e.attrs
    outbound := { s.outbound with
      data := e.fields.foldl (fun m kv => setField m kv.1 kv.2) s.outbound.data } }

/-- A Go error value returned from a component `Handle`.  `dropped` is the
designated sentinel `ErrInterceptorDropped` (its definition lives outside
the available engine source; equality with the sentinel is what
`handleInterceptor` tests). -/
inductive GoError where
  | dropped
  | other (code : Nat)
deriving DecidableEq, Repr

/-- A recovered Go panic value: either an `error` (so the type assertion
in `checkRecover` succeeds) or any other value. -/
inductive PanicVal where
  | errVal (e : GoError)
  | nonError (code : Nat)
deriving DecidableEq, Repr

/-- Whether the recovered value is an `error` (the `r.(error)` test in
`checkRecover`). -/
def isErrPanic : PanicVal → Bool
  | .errVal _ => true
  | .nonError _ => false

/-- Outcome of a component `Handle` invocation: a normal return carrying
an optional error, or a panic. -/
inductive HandleRes where
  | ret (e : Option GoError)
  | panicked (v : PanicVal)

/-- An event interceptor as seen by the engine.  Modelled from the spec:
`TopicExpr` is an immutable compiled pattern, so each expression is
represented by its match function `String → Bool` (the `matches` method is
not part of the available source).  `handle` returns the call outcome and
the session mutations performed through the interface before returning or
panicking.  `id` models pointer identity for the trace. -/
structure Interceptor where
  id : Nat
  topicExpr : List (String → Bool)
  priority : Int
  handle : Session → HandleRes × Effect

/-- A user driver as seen by the engine (same representation choices as
`Interceptor`; drivers carry no priority). -/
structure Driver where
  id : Nat
  topicExpr : List (String → Bool)
  handle : Session → HandleRes × Effect

/-- The engine state relevant to event dispatch: the registered
interceptors and drivers (registration order) and the fail-fast toggle
(`ctx.IsFailFastEnabled`). -/
structure Env where
  interceptors : List Interceptor
  drivers : List Driver
  failFast : Bool

/-- `anyTopicMatches` from the source: true iff at least one expression
matches the topic. -/
def anyTopicMatches (expected : List (String → Bool)) (topic : String) : Bool :=
  match expected with
  | [] => false
  | t :: rest => if t topic then true else anyTopicMatches rest topic

/-- Modelled from the spec: the `InterceptorSlice` comparator used by
`sort.Sort(matches)` orders by ascending numeric priority (the `Less`
method is not part of the available source; the spec assumes lower value
runs first).  Insertion step. -/
def insertByPri (x : Interceptor) : List Interceptor → List Interceptor
  | [] => [x]
  | y :: ys => if x.priority ≤ y.priority then x :: y :: ys else y :: insertByPri x ys

/-- Modelled from the spec: sorting of the matched interceptors by
ascending priority (one concrete sort consistent with the comparator;
`sort.Sort` guarantees no particular order among equal priorities). -/
def sortByPri : List Interceptor → List Interceptor
  | [] => []
  | x :: xs => insertByPri x (sortByPri xs)

/-- The dispatch stages of the engine. -/
inductive Stage where
  | interceptor
  | driver
  | output
deriving DecidableEq, Repr

/-- The attribute-name stem used by each stage handler. -/
def stageName : Stage → String
  | .interceptor => "Interceptor"
  | .driver => "Driver"
  | .output => "Output"

/-- Observable events of a stage-handler run. -/
inductive Ev where
  | aStart (st : Stage)
  | aEnd (st : Stage)
  | icall (i : Nat)
  | dropSig (i : Nat)
  | ilogErr (i : Nat)
  | dcall (i : Nat)
  | dlogErr (i : Nat)
  | logPanic
  | enq (lv : Nat)
  | callback (data : List (String × GVal))
deriving DecidableEq, Repr

/-- How the interceptor chain of one session terminated. -/
inductive ChainExit where
  | completed
  | dropped (i : Nat)
  | panicked (v : PanicVal)

/-- Result of running the sorted interceptor chain. -/
structure ChainRes where
  tr : List Ev
  s : Session
  clock : Nat
  exit : ChainExit

/-- The `for _, it := range matches` loop of `handleInterceptor`:
`nil` error continues; the drop sentinel records
`outbound["error"]="InterceptorDropped"` and terminates the chain; any
other error goes through `failFastLogger`, which logs and -- because the
fail-fast logger is a panic-level logger -- panics with the (non-error)
message value when fail-fast is enabled, and otherwise continues; a Go
panic inside `Handle` aborts the loop and unwinds to the handler boundary. -/
def runChain (failFast : Bool) : List Interceptor → Session → Nat → ChainRes
  | [], s, t => ⟨[], s, t, .completed⟩
  | it :: rest, s, t =>
    let call := it.handle s
    let s' := applyEffect s call.2
    let t' := t + 1
    match call.1 with
    | .ret none =>
      let r := runChain failFast rest s' t'
      ⟨.icall it.id :: r.tr, r.s, r.clock, r.exit⟩
    | .ret (some .dropped) =>
      ⟨[.icall it.id, .dropSig it.id],
       { s' with outbound := { s'.outbound with
           data := setField s'.outbound.data "error" (.s "InterceptorDropped") } },
       t', .dropped it.id⟩
    | .ret (some (.other _)) =>
      if failFast then
        ⟨[.icall it.id, .ilogErr it.id], s', t', .panicked (.nonError 0)⟩
      else
        let r := runChain failFast rest s' t'
        ⟨.icall it.id :: .ilogErr it.id :: r.tr, r.s, r.clock, r.exit⟩
    | .panicked v => ⟨[.icall it.id], s', t', .panicked v⟩

/-- Result of one stage-handler invocation.  `enq` is the stage queue the
session was sent to by the handler body (none if the body panicked or, for
the output stage, because it forwards nowhere); `recovered` is the panic
value caught by the deferred `checkRecover`; `reraise` is the panic
re-raised by `checkRecover` under fail-fast. -/
structure HRes where
  s : Session
  tr : List Ev
  enq : Option Nat
  clock : Nat
  recovered : Option PanicVal
  reraise : Option PanicVal

/-- The matched subset of registered interceptors, in registration order. -/
def matchingInterceptors (env : Env) (topic : String) : List Interceptor :=
  env.interceptors.filter (fun it => anyTopicMatches it.topicExpr topic)

/-- The body of `handleInterceptor` up to the queue sends: record
`Interceptor.Start`, filter and priority-sort the matching interceptors,
and run the chain. -/
def interceptorChain (env : Env) (s : Session) (t : Nat) : ChainRes :=
  runChain env.failFast (sortByPri (matchingInterceptors env s.topic))
    (addAttr s "Interceptor.Start" (.time t)) t

/-- `handleInterceptor` from the source: record `Interceptor.Start`,
filter and priority-sort the matching interceptors, run the chain, send
the session to stage 2 on a drop or stage 1 on completion, then (deferred)
record `Interceptor.End` as the elapsed duration and run `checkRecover`,
which logs an error-typed panic value and re-raises under fail-fast. -/
def handleInterceptor (env : Env) (s : Session) (t : Nat) : HRes :=
  let r := interceptorChain env s t
  let s1 := addAttr r.s "Interceptor.End" (.dur (r.clock - r.s.timestamp))
  match r.exit with
  | .completed =>
    ⟨s1, .aStart .interceptor :: (r.tr ++ [.enq 1]) ++ [.aEnd .interceptor],
     some 1, r.clock, none, none⟩
  | .dropped _ =>
    ⟨s1, .aStart .interceptor :: (r.tr ++ [.enq 2]) ++ [.aEnd .interceptor],
     some 2, r.clock, none, none⟩
  | .panicked v =>
    ⟨s1, .aStart .interceptor :: r.tr ++ [.aEnd .interceptor]
           ++ (if isErrPanic v then [.logPanic] else []),
     none, r.clock, some v, if env.failFast then some v else none⟩

/-- Result of running the driver fan-out loop.  `panicv` is the panic
unwinding out of the loop, if any. -/
structure DRes where
  tr : List Ev
  s : Session
  clock : Nat
  panicv : Option PanicVal

/-- The `for` loop of `handleDriver`: every registered driver is visited
in registration order; a matching driver's `Handle` is invoked; a returned
error goes through `failFastLogger` (log, and panic when fail-fast is
enabled); a Go panic unwinds to the handler boundary. -/
def runDrivers (failFast : Bool) : List Driver → Session → Nat → DRes
  | [], s, t => ⟨[], s, t, none⟩
  | d :: rest, s, t =>
    if anyTopicMatches d.topicExpr s.topic then
      let call := d.handle s
      let s' := applyEffect s call.2
      let t' := t + 1
      match call.1 with
      | .ret none =>
        let r := runDrivers failFast rest s' t'
        ⟨.dcall d.id :: r.tr, r.s, r.clock, r.panicv⟩
      | .ret (some _) =>
        if failFast then
          ⟨[.dcall d.id, .dlogErr d.id], s', t', some (.nonError 0)⟩
        else
          let r := runDrivers failFast rest s' t'
          ⟨.dcall d.id :: .dlogErr d.id :: r.tr, r.s, r.clock, r.panicv⟩
      | .panicked v => ⟨[.dcall d.id], s', t', some v⟩
    else
      runDrivers failFast rest s t

/-- The body of `handleDriver` up to the queue send: record
`Driver.Start` and run the fan-out loop over all registered drivers. -/
def driverLoop (env : Env) (s : Session) (t : Nat) : DRes :=
  runDrivers env.failFast env.drivers (addAttr s "Driver.Start" (.time t)) t

/-- `handleDriver` from the source: record `Driver.Start`, fan out over
all registered drivers, send the session to stage 2, then (deferred)
record `Driver.End` and run `checkRecover`. -/
def handleDriver (env : Env) (s : Session) (t : Nat) : HRes :=
  let r := driverLoop env s t
  let s1 := addAttr r.s "Driver.End" (.dur (r.clock - r.s.timestamp))
  match r.panicv with
  | none =>
    ⟨s1, .aStart .driver :: (r.tr ++ [.enq 2]) ++ [.aEnd .driver],
     some 2, r.clock, none, none⟩
  | some v =>
    ⟨s1, .aStart .driver :: r.tr ++ [.aEnd .driver]
           ++ (if isErrPanic v then [.logPanic] else []),
     none, r.clock, some v, if env.failFast then some v else none⟩

/-- `handleOutput` from the source: record `Output.Start`, invoke the
session's completion callback with `session.Outbound().Data`, then
(deferred) record `Output.End`. -/
def handleOutput (env : Env) (s : Session) (t : Nat) : HRes :=
  let s0 := addAttr s "Output.Start" (.time t)
  let t' := t + 1
  let s1 := addAttr s0 "Output.End" (.dur (t' - s0.timestamp))
  let _ := env
  ⟨s1, [.aStart .output, .callback s0.outbound.data, .aEnd .output],
   none, t', none, none⟩

/-- The stage handler registered for each dispatcher level
(`SetLv0Handler` / `SetLv1Handler` / `SetLv2Handler`). -/
def runStage : Stage → Env → Session → Nat → HRes
  | .interceptor => handleInterceptor
  | .driver => handleDriver
  | .output => handleOutput

/-- Result of one session's complete journey through the dispatcher. -/
structure RunRes where
  tr : List Ev
  s : Session
  crashed : Option PanicVal

/-- Modelled from the spec: the `Dispatcher` (not part of the available
source) runs stage handlers so that each session's stages execute strictly
in order, each stage handler's queue send determining the next stage; a
panic re-raised under fail-fast escalates to process failure, and a
swallowed panic ends the session's progression. -/
def runSession (env : Env) (s : Session) (t : Nat) : RunRes :=
  let r0 := handleInterceptor env s t
  if r0.reraise.isSome then ⟨r0.tr, r0.s, r0.reraise⟩
  else if r0.enq = some 1 then
    let r1 := handleDriver env r0.s r0.clock
    if r1.reraise.isSome then ⟨r0.tr ++ r1.tr, r1.s, r1.reraise⟩
    else if r1.enq = some 2 then
      let r2 := handleOutput env r1.s r1.clock
      ⟨r0.tr ++ r1.tr ++ r2.tr, r2.s, none⟩
    else ⟨r0.tr ++ r1.tr, r1.s, none⟩
  else if r0.enq = some 2 then
    let r2 := handleOutput env r0.s r0.clock
    ⟨r0.tr ++ r2.tr, r2.s, none⟩
  else ⟨r0.tr, r0.s, none⟩

/-- A trigger event submitted through the invoker. -/
structure TriggerEvent where
  topic : String
  data : List (String × GVal)

/-- The invoker closure installed by `prepareEnv`: build a fresh session
from the event and send it on the level-0 queue.  Returns the session and
the queue level it is sent to. -/
def invoker (income : TriggerEvent) (now : Nat) : Session × Nat :=
  (⟨now, [], income.topic,
    ⟨income.topic, income.data⟩,
    ⟨income.topic, []⟩⟩, 0)

/-- Component lifecycle roles. -/
inductive Role where
  | plugin
  | pipeline
  | driver
  | trigger
deriving DecidableEq, Repr

/-- A lifecycle call issued by `Start` (`up = true`) or `Stop`
(`up = false`) to the component with the given id. -/
inductive LifeEv where
  | call (r : Role) (up : Bool) (id : Nat)
deriving DecidableEq, Repr

/-- The registered components of each role, by id; pipelines are keyed by
protocol name. -/
structure Registration where
  plugins : List Nat
  pipelines : List (String × Nat)
  drivers : List Nat
  triggers : List Nat

/-- `Engine.Start` from the source: issue `OnStart` for the Plugins, then
the Pipelines, then the Drivers, then the Triggers (each guarded by the
soft lifecycle timeout, which never suppresses the call).  Modelled from
the spec: `x.ForEach` visits every element of a collection in order; the
pipeline map is modelled as its entry list.  The before/after hooks are
not lifecycle component calls and are omitted. -/
def engineStart (reg : Registration) : List LifeEv :=
  reg.plugins.map (LifeEv.call .plugin true)
    ++ reg.pipelines.map (fun p => LifeEv.call .pipeline true p.2)
    ++ reg.drivers.map (LifeEv.call .driver true)
    ++ reg.triggers.map (LifeEv.call .trigger true)

/-- `Engine.Stop` from the source: issue `OnStop` for the Triggers, then
the Drivers, then the Pipelines, then the Plugins. -/
def engineStop (reg : Registration) : List LifeEv :=
  reg.triggers.map (LifeEv.call .trigger false)
    ++ reg.drivers.map (LifeEv.call .driver false)
    ++ reg.pipelines.map (fun p => LifeEv.call .pipeline false p.2)
    ++ reg.plugins.map (LifeEv.call .plugin false)

/-- The position of a role in the `Start` order. -/
def startRank : Role → Nat
  | .plugin => 0
  | .pipeline => 1
  | .driver => 2
  | .trigger => 3

/-- The position of a role in the `Stop` order. -/
def stopRank : Role → Nat
  | .trigger => 0
  | .driver => 1
  | .pipeline => 2
  | .plugin => 3

/-- The role of a lifecycle call. -/
def roleOf : LifeEv → Role
  | .call r _ _ => r

/-- The interceptor ids invoked during a trace, in invocation order. -/
def calledIds : List Ev → List Nat
  | [] => []
  | .icall i :: r => i :: calledIds r
  | _ :: r => calledIds r

/-- The driver ids invoked during a trace, in invocation order. -/
def dcalledIds : List Ev → List Nat
  | [] => []
  | .dcall i :: r => i :: dcalledIds r
  | _ :: r => dcalledIds r

/-- The number of completion-callback invocations in a trace. -/
def countCB : List Ev → Nat
  | [] => 0
  | .callback _ :: r => countCB r + 1
  | _ :: r => countCB r

/-- `x` occurs strictly before `y` in `l`. -/
def precedes (x y : α) (l : List α) : Prop :=
  ∃ l1 l2 l3, l = l1 ++ x :: l2 ++ y :: l3

/-- The event kinds the interceptor chain itself can emit. -/
def chainEv : Ev → Bool
  | .icall _ => true
  | .ilogErr _ => true
  | .dropSig _ => true
  | _ => false

/-- The event kinds the driver loop itself can emit. -/
def drvEv : Ev → Bool
  | .dcall _ => true
  | .dlogErr _ => true
  | _ => false

/-! ### Concrete fixtures used by witnesses and counterexamples -/

/-- A compiled topic expression matching exactly the literal topic "x". -/
def exprX : String → Bool := fun top => top == "x"

/-- A component handle that succeeds and performs no session mutation. -/
def okHandle : Session → HandleRes × Effect := fun _ => (.ret none, noEffect)

/-- A component handle that returns a non-drop error. -/
def errHandle : Session → HandleRes × Effect := fun _ => (.ret (some (.other 1)), noEffect)

/-- A component handle that returns the drop sentinel. -/
def dropHandle : Session → HandleRes × Effect := fun _ => (.ret (some .dropped), noEffect)

/-- A component handle that panics with a non-error value. -/
def panicHandle : Session → HandleRes × Effect := fun _ => (.panicked (.nonError 7), noEffect)

/-- A component handle that panics with an error-typed value. -/
def panicErrHandle : Session → HandleRes × Effect :=
  fun _ => (.panicked (.errVal (.other 3)), noEffect)

/-- A session on topic "x" as built by the invoker. -/
def sessX : Session := (invoker ⟨"x", []⟩ 0).1

def c1drop : Interceptor := ⟨0, [exprX], 10, dropHandle⟩

def c1next : Interceptor := ⟨1, [exprX], 20, okHandle⟩

def c1drv : Driver := ⟨5, [exprX], okHandle⟩

def c1env : Env := ⟨[c1drop, c1next], [c1drv], false⟩

def c2i10 : Interceptor := ⟨0, [exprX], 10, okHandle⟩

def c2i5 : Interceptor := ⟨1, [exprX], 5, okHandle⟩

def c2i20 : Interceptor := ⟨2, [exprX], 20, okHandle⟩

def c2env : Env := ⟨[c2i10, c2i5, c2i20], [], false⟩

def c3d0 : Driver := ⟨0, [exprX], errHandle⟩

def c3d1 : Driver := ⟨1, [exprX], okHandle⟩

def c3envff : Env := ⟨[], [c3d0, c3d1], true⟩

def c3env : Env := ⟨[], [c3d0, c3d1], false⟩

def c4p : Interceptor := ⟨0, [exprX], 0, panicHandle⟩

def c4envcex : Env := ⟨[c4p], [], false⟩

def c4wi : Interceptor := ⟨0, [exprX], 0, okHandle⟩

def c4wd : Driver := ⟨1, [exprX], okHandle⟩

def c4env : Env := ⟨[c4wi], [c4wd], false⟩

def c5err : Interceptor := ⟨0, [exprX], 0, errHandle⟩

def c5ok : Interceptor := ⟨1, [exprX], 1, okHandle⟩

def c5envff : Env := ⟨[c5err, c5ok], [], true⟩

def c5env : Env := ⟨[c5err, c5ok], [], false⟩

def c6drop : Interceptor := ⟨0, [exprX], 0, dropHandle⟩

def c6ok : Interceptor := ⟨1, [exprX], 1, okHandle⟩

def c6env : Env := ⟨[c6drop, c6ok], [], false⟩

def c6wd : Driver := ⟨3, [exprX], okHandle⟩

def c6wenv : Env := ⟨[c6ok], [c6wd], false⟩

def c8p : Interceptor := ⟨0, [exprX], 0, panicHandle⟩

def c8env : Env := ⟨[c8p], [], false⟩

def c8pe : Interceptor := ⟨0, [exprX], 0, panicErrHandle⟩

def c8wenv : Env := ⟨[c8pe], [], false⟩

/-! ### Basic preservation and trace lemmas -/

theorem topic_applyEffect (s : Session) (e : Effect) :
    (applyEffect s e).topic = s.topic := rfl

theorem timestamp_applyEffect (s : Session) (e : Effect) :
    (applyEffect s e).timestamp = s.timestamp := rfl

theorem topic_addAttr (s : Session) (k : String) (v : AttrVal) :
    (addAttr s k v).topic = s.topic := rfl

theorem timestamp_addAttr (s : Session) (k : String) (v : AttrVal) :
    (addAttr s k v).timestamp = s.timestamp := rfl

theorem calledIds_append (l1 l2 : List Ev) :
    calledIds (l1 ++ l2) = calledIds l1 ++ calledIds l2 := by
  induction l1 with
  | nil => rfl
  | cons e r ih => cases e <;> simp [calledIds, ih]

theorem dcalledIds_append (l1 l2 : List Ev) :
    dcalledIds (l1 ++ l2) = dcalledIds l1 ++ dcalledIds l2 := by
  induction l1 with
  | nil => rfl
  | cons e r ih => cases e <;> simp [dcalledIds, ih]

theorem countCB_append (l1 l2 : List Ev) :
    countCB (l1 ++ l2) = countCB l1 + countCB l2 := by
  induction l1 with
  | nil => simp [countCB]
  | cons e r ih =>
    cases e <;> simp [countCB, ih]
    omega

theorem mem_calledIds (i : Nat) (tr : List Ev) :
    i ∈ calledIds tr ↔ Ev.icall i ∈ tr := by
  induction tr with
  | nil => simp [calledIds]
  | cons e r ih => cases e <;> simp [calledIds, ih]

theorem mem_dcalledIds (i : Nat) (tr : List Ev) :
    i ∈ dcalledIds tr ↔ Ev.dcall i ∈ tr := by
  induction tr with
  | nil => simp [dcalledIds]
  | cons e r ih => cases e <;> simp [dcalledIds, ih]

theorem lookupF_setField (m : List (String × GVal)) (k : String) (v : GVal) :
    lookupF (setField m k v) k = some v := by
  induction m with
  | nil => simp [setField, lookupF]
  | cons kv r ih =>
    by_cases h : kv.1 = k
    · simp [setField, h, lookupF]
    · simp [setField, h, lookupF, ih]

/-! ### Topic-matching lemmas -/

theorem anyTopicMatches_iff (exprs : List (String → Bool)) (topic : String) :
    anyTopicMatches exprs topic = true ↔ ∃ f ∈ exprs, f topic = true := by
  induction exprs with
  | nil => simp [anyTopicMatches]
  | cons f rest ih =>
    by_cases h : f topic = true
    · simp [anyTopicMatches, h]
    · simp [anyTopicMatches, h, ih]

/-! ### Priority-sort lemmas -/

theorem mem_insertByPri (x y : Interceptor) (l : List Interceptor) :
    y ∈ insertByPri x l ↔ y = x ∨ y ∈ l := by
  induction l with
  | nil => simp [insertByPri]
  | cons z r ih =>
    by_cases h : x.priority ≤ z.priority
    · simp [insertByPri, h, List.mem_cons]
      try tauto
    · simp [insertByPri, h, List.mem_cons, ih]
      try tauto

theorem mem_sortByPri (y : Interceptor) (l : List Interceptor) :
    y ∈ sortByPri l ↔ y ∈ l := by
  induction l with
  | nil => simp [sortByPri]
  | cons x r ih =>
    simp [sortByPri, mem_insertByPri, ih, List.mem_cons]

theorem pairwise_insertByPri (x : Interceptor) (l : List Interceptor)
    (h : l.Pairwise (fun a b => a.priority ≤ b.priority)) :
    (insertByPri x l).Pairwise (fun a b => a.priority ≤ b.priority) := by
  induction l with
  | nil => simp [insertByPri]
  | cons z r ih =>
    rcases List.pairwise_cons.mp h with ⟨hz, hr⟩
    by_cases hle : x.priority ≤ z.priority
    · simp only [insertByPri, hle, if_true]
      refine List.pairwise_cons.mpr ⟨?_, h⟩
      intro b hb
      rcases List.mem_cons.mp hb with rfl | hb
      · exact hle
      · exact le_trans hle (hz b hb)
    · simp only [insertByPri, hle, if_false]
      refine List.pairwise_cons.mpr ⟨?_, ih hr⟩
      intro b hb
      rcases (mem_insertByPri x b r).mp hb with rfl | hb
      · exact le_of_not_le hle
      · exact hz b hb

theorem pairwise_sortByPri (l : List Interceptor) :
    (sortByPri l).Pairwise (fun a b => a.priority ≤ b.priority) := by
  induction l with
  | nil => exact List.Pairwise.nil
  | cons x r ih => exact pairwise_insertByPri x (sortByPri r) ih

/-! ### Interceptor-chain lemmas -/

theorem countCB_of_chainEv : ∀ tr : List Ev, (∀ e ∈ tr, chainEv e = true) → countCB tr = 0
  | [], _ => rfl
  | e :: r, h => by
    have he := h e (List.mem_cons_self e r)
    have hr := countCB_of_chainEv r (fun x hx => h x (List.mem_cons_of_mem _ hx))
    cases e <;> simp [chainEv] at he <;> simp [countCB, hr]

theorem runChain_events (ff : Bool) (l : List Interceptor) (s : Session) (t : Nat) :
    ∀ e ∈ (runChain ff l s t).tr, chainEv e = true := by
  induction l generalizing s t with
  | nil => intro e he; simp [runChain] at he
  | cons it rest ih =>
    cases hres : (it.handle s).1 with
    | ret oe =>
      cases oe with
      | none =>
        simp only [runChain, hres]
        intro e he
        rcases List.mem_cons.mp he with rfl | he'
        · rfl
        · exact ih _ _ e he'
      | some ge =>
        cases ge with
        | dropped =>
          simp only [runChain, hres]
          intro e he
          rcases List.mem_cons.mp he with rfl | he'
          · rfl
          · rcases List.mem_cons.mp he' with rfl | he''
            · rfl
            · simp at he''
        | other c =>
          cases ff with
          | true =>
            simp only [runChain, hres, if_true]
            intro e he
            rcases List.mem_cons.mp he with rfl | he'
            · rfl
            · rcases List.mem_cons.mp he' with rfl | he''
              · rfl
              · simp at he''
          | false =>
            simp only [runChain, hres, Bool.false_eq_true, if_false]
            intro e he
            rcases List.mem_cons.mp he with rfl | he'
            · rfl
            · rcases List.mem_cons.mp he' with rfl | he''
              · rfl
              · exact ih _ _ e he''
    | panicked v =>
      simp only [runChain, hres]
      intro e he
      rcases List.mem_cons.mp he with rfl | he'
      · rfl
      · simp at he'

theorem runChain_timestamp (ff : Bool) (l : List Interceptor) (s : Session) (t : Nat) :
    (runChain ff l s t).s.timestamp = s.timestamp := by
  induction l generalizing s t with
  | nil => rfl
  | cons it rest ih =>
    cases hres : (it.handle s).1 with
    | ret oe =>
      cases oe with
      | none => simp only [runChain, hres]; rw [ih, timestamp_applyEffect]
      | some ge =>
        cases ge with
        | dropped => simp only [runChain, hres]; exact timestamp_applyEffect s _
        | other c =>
          cases ff with
          | true =>
            simp only [runChain, hres, if_true]
            exact timestamp_applyEffect s _
          | false =>
            simp only [runChain, hres, Bool.false_eq_true, if_false]
            rw [ih, timestamp_applyEffect]
    | panicked v => simp only [runChain, hres]; exact timestamp_applyEffect s _

theorem runChain_calledIds (ff : Bool) (l : List Interceptor) (s : Session) (t : Nat) :
    ∃ k, k ≤ l.length ∧
      calledIds (runChain ff l s t).tr = (l.take k).map Interceptor.id ∧
      ((runChain ff l s t).exit = ChainExit.completed → k = l.length) := by
  induction l generalizing s t with
  | nil => exact ⟨0, Nat.le_refl 0, rfl, fun _ => rfl⟩
  | cons it rest ih =>
    cases hres : (it.handle s).1 with
    | ret oe =>
      cases oe with
      | none =>
        obtain ⟨k, hk, hc, hcomp⟩ := ih (applyEffect s (it.handle s).2) (t + 1)
        refine ⟨k + 1, Nat.succ_le_succ hk, ?_, ?_⟩
        · simp only [runChain, hres, calledIds, List.take_succ_cons, List.map_cons]
          rw [hc]
        · intro h
          simp only [runChain, hres] at h
          simp [hcomp h]
      | some ge =>
        cases ge with
        | dropped =>
          refine ⟨1, Nat.succ_le_succ (Nat.zero_le _), ?_, ?_⟩
          · simp [runChain, hres, calledIds]
          · intro h
            simp only [runChain, hres] at h
            exact ChainExit.noConfusion h
        | other c =>
          cases ff with
          | true =>
            refine ⟨1, Nat.succ_le_succ (Nat.zero_le _), ?_, ?_⟩
            · simp [runChain, hres, calledIds]
            · intro h
              simp only [runChain, hres, if_true] at h
              exact ChainExit.noConfusion h
          | false =>
            obtain ⟨k, hk, hc, hcomp⟩ := ih (applyEffect s (it.handle s).2) (t + 1)
            refine ⟨k + 1, Nat.succ_le_succ hk, ?_, ?_⟩
            · simp only [runChain, hres, Bool.false_eq_true, if_false, calledIds,
                List.take_succ_cons, List.map_cons]
              rw [hc]
            · intro h
              simp only [runChain, hres, Bool.false_eq_true, if_false] at h
              simp [hcomp h]
    | panicked v =>
      refine ⟨1, Nat.succ_le_succ (Nat.zero_le _), ?_, ?_⟩
      · simp [runChain, hres, calledIds]
      · intro h
        simp only [runChain, hres] at h
        exact ChainExit.noConfusion h

theorem runChain_dropSig (ff : Bool) (l : List Interceptor) (s : Session) (t : Nat) (k : Nat)
    (h : Ev.dropSig k ∈ (runChain ff l s t).tr) :
    ∃ pre, (runChain ff l s t).tr = pre ++ [Ev.dropSig k]
      ∧ Ev.dropSig k ∉ pre ∧ (runChain ff l s t).exit = ChainExit.dropped k := by
  induction l generalizing s t with
  | nil => simp [runChain] at h
  | cons it rest ih =>
    cases hres : (it.handle s).1 with
    | ret oe =>
      cases oe with
      | none =>
        simp only [runChain, hres] at h ⊢
        rcases List.mem_cons.mp h with heq | h'
        · exact Ev.noConfusion heq
        · obtain ⟨pre, hp, hnp, hex⟩ := ih _ _ h'
          exact ⟨.icall it.id :: pre, by simp [hp], by simp [hnp], hex⟩
      | some ge =>
        cases ge with
        | dropped =>
          simp only [runChain, hres] at h ⊢
          rcases List.mem_cons.mp h with heq | h'
          · exact Ev.noConfusion heq
          · rcases List.mem_cons.mp h' with heq | h''
            · cases heq
              exact ⟨[.icall it.id], rfl, by simp, rfl⟩
            · simp at h''
        | other c =>
          cases ff with
          | true =>
            simp only [runChain, hres, if_true] at h
            rcases List.mem_cons.mp h with heq | h'
            · exact Ev.noConfusion heq
            · rcases List.mem_cons.mp h' with heq | h''
              · exact Ev.noConfusion heq
              · simp at h''
          | false =>
            simp only [runChain, hres, Bool.false_eq_true, if_false] at h ⊢
            rcases List.mem_cons.mp h with heq | h'
            · exact Ev.noConfusion heq
            · rcases List.mem_cons.mp h' with heq | h''
              · exact Ev.noConfusion heq
              · obtain ⟨pre, hp, hnp, hex⟩ := ih _ _ h''
                exact ⟨.icall it.id :: .ilogErr it.id :: pre, by simp [hp], by simp [hnp], hex⟩
    | panicked v =>
      simp only [runChain, hres] at h
      rcases List.mem_cons.mp h with heq | h'
      · exact Ev.noConfusion heq
      · simp at h'

theorem runChain_dropped_lookup (ff : Bool) (l : List Interceptor) (s : Session) (t : Nat)
    (k : Nat) (h : (runChain ff l s t).exit = ChainExit.dropped k) :
    lookupF (runChain ff l s t).s.outbound.data "error" = some (GVal.s "InterceptorDropped") := by
  induction l generalizing s t with
  | nil => exact ChainExit.noConfusion h
  | cons it rest ih =>
    cases hres : (it.handle s).1 with
    | ret oe =>
      cases oe with
      | none =>
        simp only [runChain, hres] at h ⊢
        exact ih _ _ h
      | some ge =>
        cases ge with
        | dropped =>
          simp only [runChain, hres]
          exact lookupF_setField _ _ _
        | other c =>
          cases ff with
          | true =>
            simp only [runChain, hres, if_true] at h
            exact ChainExit.noConfusion h
          | false =>
            simp only [runChain, hres, Bool.false_eq_true, if_false] at h ⊢
            exact ih _ _ h
    | panicked v =>
      simp only [runChain, hres] at h
      exact ChainExit.noConfusion h

theorem runChain_icall_src (ff : Bool) (l : List Interceptor) (s : Session) (t : Nat) (i : Nat)
    (h : Ev.icall i ∈ (runChain ff l s t).tr) : ∃ it ∈ l, it.id = i := by
  induction l generalizing s t with
  | nil => simp [runChain] at h
  | cons it rest ih =>
    cases hres : (it.handle s).1 with
    | ret oe =>
      cases oe with
      | none =>
        simp only [runChain, hres] at h
        rcases List.mem_cons.mp h with heq | h'
        · cases heq
          exact ⟨it, List.mem_cons_self _ _, rfl⟩
        · obtain ⟨it', hm, hi⟩ := ih _ _ h'
          exact ⟨it', List.mem_cons_of_mem _ hm, hi⟩
      | some ge =>
        cases ge with
        | dropped =>
          simp only [runChain, hres] at h
          rcases List.mem_cons.mp h with heq | h'
          · cases heq
            exact ⟨it, List.mem_cons_self _ _, rfl⟩
          · rcases List.mem_cons.mp h' with heq | h''
            · exact Ev.noConfusion heq
            · simp at h''
        | other c =>
          cases ff with
          | true =>
            simp only [runChain, hres, if_true] at h
            rcases List.mem_cons.mp h with heq | h'
            · cases heq
              exact ⟨it, List.mem_cons_self _ _, rfl⟩
            · rcases List.mem_cons.mp h' with heq | h''
              · exact Ev.noConfusion heq
              · simp at h''
          | false =>
            simp only [runChain, hres, Bool.false_eq_true, if_false] at h
            rcases List.mem_cons.mp h with heq | h'
            · cases heq
              exact ⟨it, List.mem_cons_self _ _, rfl⟩
            · rcases List.mem_cons.mp h' with heq | h''
              · exact Ev.noConfusion heq
              · obtain ⟨it', hm, hi⟩ := ih _ _ h''
                exact ⟨it', List.mem_cons_of_mem _ hm, hi⟩
    | panicked v =>
      simp only [runChain, hres] at h
      rcases List.mem_cons.mp h with heq | h'
      · cases heq
        exact ⟨it, List.mem_cons_self _ _, rfl⟩
      · simp at h'

theorem runChain_completed (l : List Interceptor) (s : Session) (t : Nat)
    (hben : ∀ it ∈ l, ∀ s', (it.handle s').1 ≠ HandleRes.ret (some GoError.dropped)
      ∧ ∀ v, (it.handle s').1 ≠ HandleRes.panicked v) :
    (runChain false l s t).exit = ChainExit.completed := by
  induction l generalizing s t with
  | nil => rfl
  | cons it rest ih =>
    have hb := hben it (List.mem_cons_self _ _)
    have hrest := fun it' h' => hben it' (List.mem_cons_of_mem _ h')
    cases hres : (it.handle s).1 with
    | ret oe =>
      cases oe with
      | none => simp only [runChain, hres]; exact ih _ _ hrest
      | some ge =>
        cases ge with
        | dropped => exact absurd hres (hb s).1
        | other c => simp only [runChain, hres, if_false]; exact ih _ _ hrest
    | panicked v => exact absurd hres ((hb s).2 v)

theorem runChain_no_panic (l : List Interceptor) (s : Session) (t : Nat)
    (hnp : ∀ it ∈ l, ∀ s' v, (it.handle s').1 ≠ HandleRes.panicked v) :
    (runChain false l s t).exit = ChainExit.completed
      ∨ ∃ i, (runChain false l s t).exit = ChainExit.dropped i := by
  induction l generalizing s t with
  | nil => exact Or.inl rfl
  | cons it rest ih =>
    have hrest := fun it' h' => hnp it' (List.mem_cons_of_mem _ h')
    cases hres : (it.handle s).1 with
    | ret oe =>
      cases oe with
      | none => simp only [runChain, hres]; exact ih _ _ hrest
      | some ge =>
        cases ge with
        | dropped =>
          simp only [runChain, hres]
          exact Or.inr ⟨it.id, rfl⟩
        | other c => simp only [runChain, hres, if_false]; exact ih _ _ hrest
    | panicked v => exact absurd hres (hnp it (List.mem_cons_self _ _) s v)

theorem runChain_err_logged (l : List Interceptor) (s : Session) (t : Nat) (e : Interceptor)
    (hben : ∀ it ∈ l, ∀ s', (it.handle s').1 ≠ HandleRes.ret (some GoError.dropped)
      ∧ ∀ v, (it.handle s').1 ≠ HandleRes.panicked v)
    (hel : e ∈ l)
    (herr : ∀ s', ∃ c, (e.handle s').1 = HandleRes.ret (some (GoError.other c))) :
    Ev.ilogErr e.id ∈ (runChain false l s t).tr := by
  induction l generalizing s t with
  | nil => cases hel
  | cons it rest ih =>
    have hrest := fun it' h' => hben it' (List.mem_cons_of_mem _ h')
    rcases List.mem_cons.mp hel with rfl | hel'
    · obtain ⟨c, hc⟩ := herr s
      simp [runChain, hc]
    · have hb := hben it (List.mem_cons_self _ _)
      cases hres : (it.handle s).1 with
      | ret oe =>
        cases oe with
        | none =>
          simp only [runChain, hres]
          exact List.mem_cons_of_mem _ (ih _ _ hrest hel')
        | some ge =>
          cases ge with
          | dropped => exact absurd hres (hb s).1
          | other c =>
            simp only [runChain, hres, if_false]
            exact List.mem_cons_of_mem _ (List.mem_cons_of_mem _ (ih _ _ hrest hel'))
      | panicked v => exact absurd hres ((hb s).2 v)

/-! ### Driver fan-out lemmas -/

theorem countCB_of_drvEv : ∀ tr : List Ev, (∀ e ∈ tr, drvEv e = true) → countCB tr = 0
  | [], _ => rfl
  | e :: r, h => by
    have he := h e (List.mem_cons_self e r)
    have hr := countCB_of_drvEv r (fun x hx => h x (List.mem_cons_of_mem _ hx))
    cases e <;> simp [drvEv] at he <;> simp [countCB, hr]

theorem runDrivers_events (ff : Bool) (l : List Driver) (s : Session) (t : Nat) :
    ∀ e ∈ (runDrivers ff l s t).tr, drvEv e = true := by
  induction l generalizing s t with
  | nil => intro e he; simp [runDrivers] at he
  | cons d rest ih =>
    cases hm : anyTopicMatches d.topicExpr s.topic with
    | false =>
      simp only [runDrivers, hm, Bool.false_eq_true, if_false]
      exact ih s t
    | true =>
      cases hres : (d.handle s).1 with
      | ret oe =>
        cases oe with
        | none =>
          simp only [runDrivers, hm, if_true, hres]
          intro e he
          rcases List.mem_cons.mp he with rfl | he'
          · rfl
          · exact ih _ _ e he'
        | some ge =>
          cases ff with
          | true =>
            simp only [runDrivers, hm, if_true, hres]
            intro e he
            rcases List.mem_cons.mp he with rfl | he'
            · rfl
            · rcases List.mem_cons.mp he' with rfl | he''
              · rfl
              · simp at he''
          | false =>
            simp only [runDrivers, hm, if_true, hres, Bool.false_eq_true, if_false]
            intro e he
            rcases List.mem_cons.mp he with rfl | he'
            · rfl
            · rcases List.mem_cons.mp he' with rfl | he''
              · rfl
              · exact ih _ _ e he''
      | panicked v =>
        simp only [runDrivers, hm, if_true, hres]
        intro e he
        rcases List.mem_cons.mp he with rfl | he'
        · rfl
        · simp at he'

theorem runDrivers_timestamp (ff : Bool) (l : List Driver) (s : Session) (t : Nat) :
    (runDrivers ff l s t).s.timestamp = s.timestamp := by
  induction l generalizing s t with
  | nil => rfl
  | cons d rest ih =>
    cases hm : anyTopicMatches d.topicExpr s.topic with
    | false =>
      simp only [runDrivers, hm, Bool.false_eq_true, if_false]
      exact ih s t
    | true =>
      cases hres : (d.handle s).1 with
      | ret oe =>
        cases oe with
        | none =>
          simp only [runDrivers, hm, if_true, hres]
          rw [ih, timestamp_applyEffect]
        | some ge =>
          cases ff with
          | true =>
            simp only [runDrivers, hm, if_true, hres]
            exact timestamp_applyEffect s _
          | false =>
            simp only [runDrivers, hm, if_true, hres, Bool.false_eq_true, if_false]
            rw [ih, timestamp_applyEffect]
      | panicked v =>
        simp only [runDrivers, hm, if_true, hres]
        exact timestamp_applyEffect s _

theorem runDrivers_calls (ff : Bool) (l : List Driver) (s : Session) (t : Nat)
    (h : (runDrivers ff l s t).panicv = none) :
    dcalledIds (runDrivers ff l s t).tr
      = (l.filter (fun d => anyTopicMatches d.topicExpr s.topic)).map Driver.id := by
  induction l generalizing s t with
  | nil => rfl
  | cons d rest ih =>
    cases hm : anyTopicMatches d.topicExpr s.topic with
    | false =>
      simp only [runDrivers, hm, Bool.false_eq_true, if_false] at h ⊢
      simp only [List.filter_cons, hm, Bool.false_eq_true, if_false]
      exact ih s t h
    | true =>
      cases hres : (d.handle s).1 with
      | ret oe =>
        cases oe with
        | none =>
          simp only [runDrivers, hm, if_true, hres] at h ⊢
          simp only [List.filter_cons, hm, if_true, List.map_cons, dcalledIds]
          have := ih (applyEffect s (d.handle s).2) (t + 1) h
          simp only [topic_applyEffect] at this
          rw [this]
        | some ge =>
          cases ff with
          | true =>
            simp only [runDrivers, hm, if_true, hres] at h
            exact Option.noConfusion h
          | false =>
            simp only [runDrivers, hm, if_true, hres, Bool.false_eq_true, if_false] at h ⊢
            simp only [List.filter_cons, hm, if_true, List.map_cons, dcalledIds]
            have := ih (applyEffect s (d.handle s).2) (t + 1) h
            simp only [topic_applyEffect] at this
            rw [this]
      | panicked v =>
        simp only [runDrivers, hm, if_true, hres] at h
        exact Option.noConfusion h

theorem runDrivers_no_panic (l : List Driver) (s : Session) (t : Nat)
    (hnp : ∀ d ∈ l, ∀ s' v, (d.handle s').1 ≠ HandleRes.panicked v) :
    (runDrivers false l s t).panicv = none := by
  induction l generalizing s t with
  | nil => rfl
  | cons d rest ih =>
    have hrest := fun d' h' => hnp d' (List.mem_cons_of_mem _ h')
    cases hm : anyTopicMatches d.topicExpr s.topic with
    | false =>
      simp only [runDrivers, hm, Bool.false_eq_true, if_false]
      exact ih s t hrest
    | true =>
      cases hres : (d.handle s).1 with
      | ret oe =>
        cases oe with
        | none =>
          simp only [runDrivers, hm, if_true, hres]
          exact ih _ _ hrest
        | some ge =>
          simp only [runDrivers, hm, if_true, hres, Bool.false_eq_true, if_false]
          exact ih _ _ hrest
      | panicked v => exact absurd hres (hnp d (List.mem_cons_self _ _) s v)

theorem runDrivers_dcall_src (ff : Bool) (l : List Driver) (s : Session) (t : Nat) (i : Nat)
    (h : Ev.dcall i ∈ (runDrivers ff l s t).tr) :
    ∃ d ∈ l, d.id = i ∧ anyTopicMatches d.topicExpr s.topic = true := by
  induction l generalizing s t with
  | nil => simp [runDrivers] at h
  | cons d rest ih =>
    cases hm : anyTopicMatches d.topicExpr s.topic with
    | false =>
      simp only [runDrivers, hm, Bool.false_eq_true, if_false] at h
      obtain ⟨d', hd', hi, hmt⟩ := ih s t h
      exact ⟨d', List.mem_cons_of_mem _ hd', hi, hmt⟩
    | true =>
      cases hres : (d.handle s).1 with
      | ret oe =>
        cases oe with
        | none =>
          simp only [runDrivers, hm, if_true, hres] at h
          rcases List.mem_cons.mp h with heq | h'
          · cases heq
            exact ⟨d, List.mem_cons_self _ _, rfl, hm⟩
          · obtain ⟨d', hd', hi, hmt⟩ := ih _ _ h'
            simp only [topic_applyEffect] at hmt
            exact ⟨d', List.mem_cons_of_mem _ hd', hi, hmt⟩
        | some ge =>
          cases ff with
          | true =>
            simp only [runDrivers, hm, if_true, hres] at h
            rcases List.mem_cons.mp h with heq | h'
            · cases heq
              exact ⟨d, List.mem_cons_self _ _, rfl, hm⟩
            · rcases List.mem_cons.mp h' with heq | h''
              · exact Ev.noConfusion heq
              · simp at h''
          | false =>
            simp only [runDrivers, hm, if_true, hres, Bool.false_eq_true, if_false] at h
            rcases List.mem_cons.mp h with heq | h'
            · cases heq
              exact ⟨d, List.mem_cons_self _ _, rfl, hm⟩
            · rcases List.mem_cons.mp h' with heq | h''
              · exact Ev.noConfusion heq
              · obtain ⟨d', hd', hi, hmt⟩ := ih _ _ h''
                simp only [topic_applyEffect] at hmt
                exact ⟨d', List.mem_cons_of_mem _ hd', hi, hmt⟩
      | panicked v =>
        simp only [runDrivers, hm, if_true, hres] at h
        rcases List.mem_cons.mp h with heq | h'
        · cases heq
          exact ⟨d, List.mem_cons_self _ _, rfl, hm⟩
        · simp at h'

/-! ### Stage-handler unfolding lemmas -/

theorem handleInterceptor_completed (env : Env) (s : Session) (t : Nat)
    (hex : (interceptorChain env s t).exit = ChainExit.completed) :
    handleInterceptor env s t =
      ⟨addAttr (interceptorChain env s t).s "Interceptor.End"
          (.dur ((interceptorChain env s t).clock - (interceptorChain env s t).s.timestamp)),
       .aStart .interceptor :: ((interceptorChain env s t).tr ++ [.enq 1]) ++ [.aEnd .interceptor],
       some 1, (interceptorChain env s t).clock, none, none⟩ := by
  simp only [handleInterceptor]
  rw [hex]

theorem handleInterceptor_dropped (env : Env) (s : Session) (t : Nat) (i : Nat)
    (hex : (interceptorChain env s t).exit = ChainExit.dropped i) :
    handleInterceptor env s t =
      ⟨addAttr (interceptorChain env s t).s "Interceptor.End"
          (.dur ((interceptorChain env s t).clock - (interceptorChain env s t).s.timestamp)),
       .aStart .interceptor :: ((interceptorChain env s t).tr ++ [.enq 2]) ++ [.aEnd .interceptor],
       some 2, (interceptorChain env s t).clock, none, none⟩ := by
  simp only [handleInterceptor]
  rw [hex]

theorem handleInterceptor_panicked (env : Env) (s : Session) (t : Nat) (v : PanicVal)
    (hex : (interceptorChain env s t).exit = ChainExit.panicked v) :
    handleInterceptor env s t =
      ⟨addAttr (interceptorChain env s t).s "Interceptor.End"
          (.dur ((interceptorChain env s t).clock - (interceptorChain env s t).s.timestamp)),
       .aStart .interceptor :: (interceptorChain env s t).tr ++ [.aEnd .interceptor]
         ++ (if isErrPanic v then [.logPanic] else []),
       none, (interceptorChain env s t).clock, some v,
       if env.failFast then some v else none⟩ := by
  simp only [handleInterceptor]
  rw [hex]

theorem handleDriver_ok (env : Env) (s : Session) (t : Nat)
    (hp : (driverLoop env s t).panicv = none) :
    handleDriver env s t =
      ⟨addAttr (driverLoop env s t).s "Driver.End"
          (.dur ((driverLoop env s t).clock - (driverLoop env s t).s.timestamp)),
       .aStart .driver :: ((driverLoop env s t).tr ++ [.enq 2]) ++ [.aEnd .driver],
       some 2, (driverLoop env s t).clock, none, none⟩ := by
  simp only [handleDriver]
  rw [hp]

theorem handleDriver_panicked (env : Env) (s : Session) (t : Nat) (v : PanicVal)
    (hp : (driverLoop env s t).panicv = some v) :
    handleDriver env s t =
      ⟨addAttr (driverLoop env s t).s "Driver.End"
          (.dur ((driverLoop env s t).clock - (driverLoop env s t).s.timestamp)),
       .aStart .driver :: (driverLoop env s t).tr ++ [.aEnd .driver]
         ++ (if isErrPanic v then [.logPanic] else []),
       none, (driverLoop env s t).clock, some v,
       if env.failFast then some v else none⟩ := by
  simp only [handleDriver]
  rw [hp]

theorem countCB_handleInterceptor (env : Env) (s : Session) (t : Nat) :
    countCB (handleInterceptor env s t).tr = 0 := by
  have hch := countCB_of_chainEv (interceptorChain env s t).tr
    (runChain_events env.failFast _ _ _)
  cases hex : (interceptorChain env s t).exit with
  | completed =>
    rw [handleInterceptor_completed env s t hex]
    simp [countCB, countCB_append, hch]
  | dropped i =>
    rw [handleInterceptor_dropped env s t i hex]
    simp [countCB, countCB_append, hch]
  | panicked v =>
    rw [handleInterceptor_panicked env s t v hex]
    cases hv : isErrPanic v <;> simp [countCB, countCB_append, hch]

theorem countCB_handleDriver (env : Env) (s : Session) (t : Nat) :
    countCB (handleDriver env s t).tr = 0 := by
  have hch := countCB_of_drvEv (driverLoop env s t).tr
    (runDrivers_events env.failFast _ _ _)
  cases hp : (driverLoop env s t).panicv with
  | none =>
    rw [handleDriver_ok env s t hp]
    simp [countCB, countCB_append, hch]
  | some v =>
    rw [handleDriver_panicked env s t v hp]
    cases hv : isErrPanic v <;> simp [countCB, countCB_append, hch]

theorem countCB_handleOutput (env : Env) (s : Session) (t : Nat) :
    countCB (handleOutput env s t).tr = 1 := rfl

/-! ### Attribute-monotonicity lemmas -/

theorem attrs_applyEffect (s : Session) (e : Effect) (kv : String × AttrVal)
    (h : kv ∈ s.attributes) : kv ∈ (applyEffect s e).attributes :=
  List.mem_append_left _ h

theorem attrs_addAttr (s : Session) (k : String) (v : AttrVal) (kv : String × AttrVal)
    (h : kv ∈ s.attributes) : kv ∈ (addAttr s k v).attributes :=
  List.mem_append_left _ h

theorem attrs_addAttr_self (s : Session) (k : String) (v : AttrVal) :
    (k, v) ∈ (addAttr s k v).attributes :=
  List.mem_append_right _ (List.mem_singleton.mpr rfl)

theorem runChain_attrs_mono (ff : Bool) (l : List Interceptor) (s : Session) (t : Nat)
    (kv : String × AttrVal) (h : kv ∈ s.attributes) :
    kv ∈ (runChain ff l s t).s.attributes := by
  induction l generalizing s t with
  | nil => exact h
  | cons it rest ih =>
    cases hres : (it.handle s).1 with
    | ret oe =>
      cases oe with
      | none =>
        simp only [runChain, hres]
        exact ih _ _ (attrs_applyEffect s _ kv h)
      | some ge =>
        cases ge with
        | dropped =>
          simp only [runChain, hres]
          exact attrs_applyEffect s _ kv h
        | other c =>
          cases ff with
          | true =>
            simp only [runChain, hres, if_true]
            exact attrs_applyEffect s _ kv h
          | false =>
            simp only [runChain, hres, Bool.false_eq_true, if_false]
            exact ih _ _ (attrs_applyEffect s _ kv h)
    | panicked v =>
      simp only [runChain, hres]
      exact attrs_applyEffect s _ kv h

theorem runDrivers_attrs_mono (ff : Bool) (l : List Driver) (s : Session) (t : Nat)
    (kv : String × AttrVal) (h : kv ∈ s.attributes) :
    kv ∈ (runDrivers ff l s t).s.attributes := by
  induction l generalizing s t with
  | nil => exact h
  | cons d rest ih =>
    cases hm : anyTopicMatches d.topicExpr s.topic with
    | false =>
      simp only [runDrivers, hm, Bool.false_eq_true, if_false]
      exact ih s t h
    | true =>
      cases hres : (d.handle s).1 with
      | ret oe =>
        cases oe with
        | none =>
          simp only [runDrivers, hm, if_true, hres]
          exact ih _ _ (attrs_applyEffect s _ kv h)
        | some ge =>
          cases ff with
          | true =>
            simp only [runDrivers, hm, if_true, hres]
            exact attrs_applyEffect s _ kv h
          | false =>
            simp only [runDrivers, hm, if_true, hres, Bool.false_eq_true, if_false]
            exact ih _ _ (attrs_applyEffect s _ kv h)
      | panicked v =>
        simp only [runDrivers, hm, if_true, hres]
        exact attrs_applyEffect s _ kv h

/-! ### Lifecycle-order helpers -/

theorem roleOf_mem_map (r : Role) (u : Bool) (l : List Nat) :
    ∀ e ∈ l.map (LifeEv.call r u), roleOf e = r := by
  intro e he
  obtain ⟨i, _, rfl⟩ := List.mem_map.mp he
  rfl

theorem roleOf_mem_map_pipeline (u : Bool) (l : List (String × Nat)) :
    ∀ e ∈ l.map (fun p => LifeEv.call Role.pipeline u p.2), roleOf e = Role.pipeline := by
  intro e he
  obtain ⟨p, _, rfl⟩ := List.mem_map.mp he
  rfl

theorem pairwise_of_const_role {f : Role → Nat} (l : List LifeEv) (r : Role)
    (h : ∀ e ∈ l, roleOf e = r) :
    l.Pairwise (fun a b => f (roleOf a) ≤ f (roleOf b)) := by
  induction l with
  | nil => exact List.Pairwise.nil
  | cons e rest ih =>
    refine List.pairwise_cons.mpr ⟨?_, ih (fun x hx => h x (List.mem_cons_of_mem _ hx))⟩
    intro b hb
    rw [h e (List.mem_cons_self _ _), h b (List.mem_cons_of_mem _ hb)]

theorem pairwise_rank_append {f : Role → Nat} (A B : List LifeEv)
    (hA : A.Pairwise (fun a b => f (roleOf a) ≤ f (roleOf b)))
    (hB : B.Pairwise (fun a b => f (roleOf a) ≤ f (roleOf b)))
    (hAB : ∀ a ∈ A, ∀ b ∈ B, f (roleOf a) ≤ f (roleOf b)) :
    (A ++ B).Pairwise (fun a b => f (roleOf a) ≤ f (roleOf b)) :=
  List.pairwise_append.mpr ⟨hA, hB, hAB⟩

/-! ### Ordering helpers for the priority claim -/

theorem pairwise_mem_split (l : List Interceptor)
    (hp : l.Pairwise (fun a b => a.priority ≤ b.priority))
    (a b : Interceptor) (ha : a ∈ l) (hb : b ∈ l) (hab : a.priority < b.priority) :
    ∃ l1 l2 l3, l = l1 ++ a :: l2 ++ b :: l3 := by
  induction l with
  | nil => cases ha
  | cons x xs ih =>
    rcases List.pairwise_cons.mp hp with ⟨hx, hxs⟩
    rcases List.mem_cons.mp hb with rfl | hb'
    · rcases List.mem_cons.mp ha with rfl | ha'
      · exact absurd hab (lt_irrefl _)
      · exact absurd hab (not_lt.mpr (hx a ha'))
    · rcases List.mem_cons.mp ha with rfl | ha'
      · obtain ⟨l2, l3, hsplit⟩ := List.append_of_mem hb'
        exact ⟨[], l2, l3, by rw [hsplit]; simp⟩
      · obtain ⟨l1, l2, l3, hsplit⟩ := ih hxs ha' hb'
        exact ⟨x :: l1, l2, l3, by rw [hsplit]; simp⟩

theorem mem_take_of_lt_pri (l : List Interceptor)
    (hp : l.Pairwise (fun a b => a.priority ≤ b.priority)) (k : Nat)
    (a b : Interceptor) (ha : a ∈ l) (hb : b ∈ l.take k) (hab : a.priority < b.priority) :
    a ∈ l.take k := by
  have ha' : a ∈ l.take k ++ l.drop k := by rw [List.take_append_drop]; exact ha
  have hp' : (l.take k ++ l.drop k).Pairwise (fun a b => a.priority ≤ b.priority) := by
    rw [List.take_append_drop]; exact hp
  rcases List.mem_append.mp ha' with h | h
  · exact h
  · exact absurd hab (not_lt.mpr ((List.pairwise_append.mp hp').2.2 b hb a h))

theorem id_inj_of_nodup (l : List Interceptor) (hn : (l.map Interceptor.id).Nodup)
    (x y : Interceptor) (hx : x ∈ l) (hy : y ∈ l) (hxy : x.id = y.id) : x = y := by
  induction l with
  | nil => cases hx
  | cons z zs ih =>
    simp only [List.map_cons] at hn
    rcases List.nodup_cons.mp hn with ⟨hz, hzs⟩
    rcases List.mem_cons.mp hx with rfl | hx' <;> rcases List.mem_cons.mp hy with rfl | hy'
    · rfl
    · exact absurd (hxy ▸ List.mem_map_of_mem Interceptor.id hy') hz
    · exact absurd (hxy ▸ List.mem_map_of_mem Interceptor.id hx') hz
    · exact ih hzs hx' hy'

theorem calledIds_handleInterceptor (env : Env) (s : Session) (t : Nat) :
    calledIds (handleInterceptor env s t).tr = calledIds (interceptorChain env s t).tr := by
  cases hex : (interceptorChain env s t).exit with
  | completed =>
    rw [handleInterceptor_completed env s t hex]
    simp [calledIds, calledIds_append]
  | dropped i =>
    rw [handleInterceptor_dropped env s t i hex]
    simp [calledIds, calledIds_append]
  | panicked v =>
    rw [handleInterceptor_panicked env s t v hex]
    cases hv : isErrPanic v <;> simp [calledIds, calledIds_append]

theorem dcalledIds_handleDriver (env : Env) (s : Session) (t : Nat) :
    dcalledIds (handleDriver env s t).tr = dcalledIds (driverLoop env s t).tr := by
  cases hp : (driverLoop env s t).panicv with
  | none =>
    rw [handleDriver_ok env s t hp]
    simp [dcalledIds, dcalledIds_append]
  | some v =>
    rw [handleDriver_panicked env s t v hp]
    cases hv : isErrPanic v <;> simp [dcalledIds, dcalledIds_append]

theorem icall_handleInterceptor_iff (env : Env) (s : Session) (t : Nat) (i : Nat) :
    Ev.icall i ∈ (handleInterceptor env s t).tr ↔
      Ev.icall i ∈ (interceptorChain env s t).tr := by
  rw [← mem_calledIds, ← mem_calledIds, calledIds_handleInterceptor]

theorem dcall_handleDriver_iff (env : Env) (s : Session) (t : Nat) (i : Nat) :
    Ev.dcall i ∈ (handleDriver env s t).tr ↔
      Ev.dcall i ∈ (driverLoop env s t).tr := by
  rw [← mem_dcalledIds, ← mem_dcalledIds, dcalledIds_handleDriver]

/-! ### Per-session dispatch characterizations -/

theorem runSession_crash (env : Env) (s : Session) (t : Nat) (v : PanicVal)
    (h : (handleInterceptor env s t).reraise = some v) :
    runSession env s t
      = ⟨(handleInterceptor env s t).tr, (handleInterceptor env s t).s, some v⟩ := by
  simp [runSession, h]

theorem runSession_stuck (env : Env) (s : Session) (t : Nat)
    (hrr : (handleInterceptor env s t).reraise = none)
    (henq : (handleInterceptor env s t).enq = none) :
    runSession env s t
      = ⟨(handleInterceptor env s t).tr, (handleInterceptor env s t).s, none⟩ := by
  simp [runSession, hrr, henq]

theorem runSession_dropPath (env : Env) (s : Session) (t : Nat)
    (hrr : (handleInterceptor env s t).reraise = none)
    (henq : (handleInterceptor env s t).enq = some 2) :
    runSession env s t
      = ⟨(handleInterceptor env s t).tr
          ++ (handleOutput env (handleInterceptor env s t).s
                (handleInterceptor env s t).clock).tr,
         (handleOutput env (handleInterceptor env s t).s
           (handleInterceptor env s t).clock).s, none⟩ := by
  simp [runSession, hrr, henq]

theorem runSession_driverCrash (env : Env) (s : Session) (t : Nat) (v : PanicVal)
    (hrr : (handleInterceptor env s t).reraise = none)
    (henq : (handleInterceptor env s t).enq = some 1)
    (h1 : (handleDriver env (handleInterceptor env s t).s
        (handleInterceptor env s t).clock).reraise = some v) :
    runSession env s t
      = ⟨(handleInterceptor env s t).tr
          ++ (handleDriver env (handleInterceptor env s t).s
                (handleInterceptor env s t).clock).tr,
         (handleDriver env (handleInterceptor env s t).s
           (handleInterceptor env s t).clock).s, some v⟩ := by
  simp [runSession, hrr, henq, h1]

theorem runSession_driverStuck (env : Env) (s : Session) (t : Nat)
    (hrr : (handleInterceptor env s t).reraise = none)
    (henq : (handleInterceptor env s t).enq = some 1)
    (h1 : (handleDriver env (handleInterceptor env s t).s
        (handleInterceptor env s t).clock).reraise = none)
    (h2 : (handleDriver env (handleInterceptor env s t).s
        (handleInterceptor env s t).clock).enq = none) :
    runSession env s t
      = ⟨(handleInterceptor env s t).tr
          ++ (handleDriver env (handleInterceptor env s t).s
                (handleInterceptor env s t).clock).tr,
         (handleDriver env (handleInterceptor env s t).s
           (handleInterceptor env s t).clock).s, none⟩ := by
  simp [runSession, hrr, henq, h1, h2]

theorem runSession_full (env : Env) (s : Session) (t : Nat)
    (hrr : (handleInterceptor env s t).reraise = none)
    (henq : (handleInterceptor env s t).enq = some 1)
    (h1 : (handleDriver env (handleInterceptor env s t).s
        (handleInterceptor env s t).clock).reraise = none)
    (h2 : (handleDriver env (handleInterceptor env s t).s
        (handleInterceptor env s t).clock).enq = some 2) :
    runSession env s t
      = ⟨(handleInterceptor env s t).tr
          ++ (handleDriver env (handleInterceptor env s t).s
                (handleInterceptor env s t).clock).tr
          ++ (handleOutput env
                (handleDriver env (handleInterceptor env s t).s
                  (handleInterceptor env s t).clock).s
                (handleDriver env (handleInterceptor env s t).s
                  (handleInterceptor env s t).clock).clock).tr,
         (handleOutput env
           (handleDriver env (handleInterceptor env s t).s
             (handleInterceptor env s t).clock).s
           (handleDriver env (handleInterceptor env s t).s
             (handleInterceptor env s t).clock).clock).s, none⟩ := by
  simp [runSession, hrr, henq, h1, h2]

/-! ### Event-class lemmas for whole handler traces -/

theorem handleOutput_tr (env : Env) (s : Session) (t : Nat) :
    (handleOutput env s t).tr
      = [.aStart .output, .callback s.outbound.data, .aEnd .output] := rfl

theorem handleInterceptor_ev (env : Env) (s : Session) (t : Nat) :
    ∀ e ∈ (handleInterceptor env s t).tr,
      chainEv e = true ∨ e = .aStart .interceptor ∨ e = .aEnd .interceptor
        ∨ e = .enq 1 ∨ e = .enq 2 ∨ e = .logPanic := by
  have hch := runChain_events env.failFast (sortByPri (matchingInterceptors env s.topic))
    (addAttr s "Interceptor.Start" (.time t)) t
  cases hex : (interceptorChain env s t).exit with
  | completed =>
    rw [handleInterceptor_completed env s t hex]
    intro e he
    rcases List.mem_cons.mp he with rfl | he'
    · exact Or.inr (Or.inl rfl)
    rcases List.mem_append.mp he' with he'' | he''
    · rcases List.mem_append.mp he'' with h3 | h3
      · exact Or.inl (hch e h3)
      · rcases List.mem_singleton.mp h3 with rfl
        exact Or.inr (Or.inr (Or.inr (Or.inl rfl)))
    · rcases List.mem_singleton.mp he'' with rfl
      exact Or.inr (Or.inr (Or.inl rfl))
  | dropped i =>
    rw [handleInterceptor_dropped env s t i hex]
    intro e he
    rcases List.mem_cons.mp he with rfl | he'
    · exact Or.inr (Or.inl rfl)
    rcases List.mem_append.mp he' with he'' | he''
    · rcases List.mem_append.mp he'' with h3 | h3
      · exact Or.inl (hch e h3)
      · rcases List.mem_singleton.mp h3 with rfl
        exact Or.inr (Or.inr (Or.inr (Or.inr (Or.inl rfl))))
    · rcases List.mem_singleton.mp he'' with rfl
      exact Or.inr (Or.inr (Or.inl rfl))
  | panicked v =>
    rw [handleInterceptor_panicked env s t v hex]
    intro e he
    rcases List.mem_cons.mp he with rfl | he'
    · exact Or.inr (Or.inl rfl)
    rcases List.mem_append.mp he' with he'' | he''
    · rcases List.mem_append.mp he'' with h3 | h3
      · exact Or.inl (hch e h3)
      · rcases List.mem_singleton.mp h3 with rfl
        exact Or.inr (Or.inr (Or.inl rfl))
    · cases hv : isErrPanic v <;> rw [hv] at he''
      · simp at he''
      · simp only [if_true] at he''
        rcases List.mem_singleton.mp he'' with rfl
        exact Or.inr (Or.inr (Or.inr (Or.inr (Or.inr rfl))))

theorem handleDriver_ev (env : Env) (s : Session) (t : Nat) :
    ∀ e ∈ (handleDriver env s t).tr,
      drvEv e = true ∨ e = .aStart .driver ∨ e = .aEnd .driver
        ∨ e = .enq 2 ∨ e = .logPanic := by
  have hch := runDrivers_events env.failFast env.drivers
    (addAttr s "Driver.Start" (.time t)) t
  cases hp : (driverLoop env s t).panicv with
  | none =>
    rw [handleDriver_ok env s t hp]
    intro e he
    rcases List.mem_cons.mp he with rfl | he'
    · exact Or.inr (Or.inl rfl)
    rcases List.mem_append.mp he' with he'' | he''
    · rcases List.mem_append.mp he'' with h3 | h3
      · exact Or.inl (hch e h3)
      · rcases List.mem_singleton.mp h3 with rfl
        exact Or.inr (Or.inr (Or.inr (Or.inl rfl)))
    · rcases List.mem_singleton.mp he'' with rfl
      exact Or.inr (Or.inr (Or.inl rfl))
  | some v =>
    rw [handleDriver_panicked env s t v hp]
    intro e he
    rcases List.mem_cons.mp he with rfl | he'
    · exact Or.inr (Or.inl rfl)
    rcases List.mem_append.mp he' with he'' | he''
    · rcases List.mem_append.mp he'' with h3 | h3
      · exact Or.inl (hch e h3)
      · rcases List.mem_singleton.mp h3 with rfl
        exact Or.inr (Or.inr (Or.inl rfl))
    · cases hv : isErrPanic v <;> rw [hv] at he''
      · simp at he''
      · simp only [if_true] at he''
        rcases List.mem_singleton.mp he'' with rfl
        exact Or.inr (Or.inr (Or.inr (Or.inr rfl)))

theorem dropSig_handleInterceptor (env : Env) (s : Session) (t : Nat) (k : Nat)
    (h : Ev.dropSig k ∈ (handleInterceptor env s t).tr) :
    Ev.dropSig k ∈ (interceptorChain env s t).tr := by
  cases hex : (interceptorChain env s t).exit with
  | completed =>
    rw [handleInterceptor_completed env s t hex] at h
    rcases List.mem_cons.mp h with heq | h'
    · exact Ev.noConfusion heq
    rcases List.mem_append.mp h' with h'' | h''
    · rcases List.mem_append.mp h'' with h3 | h3
      · exact h3
      · exact Ev.noConfusion (List.mem_singleton.mp h3)
    · exact Ev.noConfusion (List.mem_singleton.mp h'')
  | dropped i =>
    rw [handleInterceptor_dropped env s t i hex] at h
    rcases List.mem_cons.mp h with heq | h'
    · exact Ev.noConfusion heq
    rcases List.mem_append.mp h' with h'' | h''
    · rcases List.mem_append.mp h'' with h3 | h3
      · exact h3
      · exact Ev.noConfusion (List.mem_singleton.mp h3)
    · exact Ev.noConfusion (List.mem_singleton.mp h'')
  | panicked v =>
    rw [handleInterceptor_panicked env s t v hex] at h
    rcases List.mem_cons.mp h with heq | h'
    · exact Ev.noConfusion heq
    rcases List.mem_append.mp h' with h'' | h''
    · rcases List.mem_append.mp h'' with h3 | h3
      · exact h3
      · exact Ev.noConfusion (List.mem_singleton.mp h3)
    · cases hv : isErrPanic v <;> rw [hv] at h''
      · simp at h''
      · simp only [if_true] at h''
        exact Ev.noConfusion (List.mem_singleton.mp h'')

theorem interceptorChain_dropSig (env : Env) (s : Session) (t : Nat) (k : Nat)
    (h : Ev.dropSig k ∈ (interceptorChain env s t).tr) :
    ∃ pre, (interceptorChain env s t).tr = pre ++ [Ev.dropSig k]
      ∧ Ev.dropSig k ∉ pre ∧ (interceptorChain env s t).exit = ChainExit.dropped k := by
  simp only [interceptorChain] at h ⊢
  exact runChain_dropSig _ _ _ _ k h

theorem interceptorChain_dropped_lookup (env : Env) (s : Session) (t : Nat) (k : Nat)
    (h : (interceptorChain env s t).exit = ChainExit.dropped k) :
    lookupF (interceptorChain env s t).s.outbound.data "error"
      = some (GVal.s "InterceptorDropped") := by
  simp only [interceptorChain] at h ⊢
  exact runChain_dropped_lookup _ _ _ _ k h

theorem dcall_not_handleInterceptor (env : Env) (s : Session) (t : Nat) (j : Nat) :
    Ev.dcall j ∉ (handleInterceptor env s t).tr := by
  intro h
  rcases handleInterceptor_ev env s t _ h with hc | h' | h' | h' | h' | h'
  · simp [chainEv] at hc
  all_goals exact Ev.noConfusion h'

theorem aStartDriver_not_handleInterceptor (env : Env) (s : Session) (t : Nat) :
    Ev.aStart .driver ∉ (handleInterceptor env s t).tr := by
  intro h
  rcases handleInterceptor_ev env s t _ h with hc | h' | h' | h' | h' | h'
  · simp [chainEv] at hc
  · simp at h'
  all_goals exact Ev.noConfusion h'

theorem dropSig_not_handleDriver (env : Env) (s : Session) (t : Nat) (k : Nat) :
    Ev.dropSig k ∉ (handleDriver env s t).tr := by
  intro h
  rcases handleDriver_ev env s t _ h with hc | h' | h' | h' | h'
  · simp [drvEv] at hc
  all_goals exact Ev.noConfusion h'

theorem handleOutput_s_outbound (env : Env) (s : Session) (t : Nat) :
    (handleOutput env s t).s.outbound = s.outbound := rfl

theorem interceptorChain_no_panic (env : Env) (s : Session) (t : Nat)
    (hff : env.failFast = false)
    (hip : ∀ it ∈ env.interceptors, ∀ s' v, (it.handle s').1 ≠ HandleRes.panicked v) :
    (interceptorChain env s t).exit = ChainExit.completed
      ∨ ∃ i, (interceptorChain env s t).exit = ChainExit.dropped i := by
  simp only [interceptorChain, hff]
  exact runChain_no_panic _ _ _
    (fun it h s' v => hip it (List.mem_of_mem_filter ((mem_sortByPri it _).mp h)) s' v)

theorem driverLoop_no_panic (env : Env) (s : Session) (t : Nat)
    (hff : env.failFast = false)
    (hdp : ∀ d ∈ env.drivers, ∀ s' v, (d.handle s').1 ≠ HandleRes.panicked v) :
    (driverLoop env s t).panicv = none := by
  simp only [driverLoop, hff]
  exact runDrivers_no_panic _ _ _ hdp

theorem countCB_runSession_le_one (env : Env) (s : Session) (t : Nat) :
    countCB (runSession env s t).tr ≤ 1 := by
  cases hex : (interceptorChain env s t).exit with
  | completed =>
    have hr0 := handleInterceptor_completed env s t hex
    have hrr : (handleInterceptor env s t).reraise = none := by rw [hr0]
    have henq : (handleInterceptor env s t).enq = some 1 := by rw [hr0]
    cases hp : (driverLoop env (handleInterceptor env s t).s
        (handleInterceptor env s t).clock).panicv with
    | none =>
      have hr1 := handleDriver_ok env _ _ hp
      have h1 : (handleDriver env (handleInterceptor env s t).s
          (handleInterceptor env s t).clock).reraise = none := by rw [hr1]
      have h2 : (handleDriver env (handleInterceptor env s t).s
          (handleInterceptor env s t).clock).enq = some 2 := by rw [hr1]
      rw [runSession_full env s t hrr henq h1 h2]
      show countCB ((handleInterceptor env s t).tr ++ _ ++ _) ≤ 1
      rw [countCB_append, countCB_append, countCB_handleInterceptor,
        countCB_handleDriver, countCB_handleOutput]
    | some v =>
      have hr1 := handleDriver_panicked env _ _ v hp
      cases hf : env.failFast with
      | true =>
        have h1 : (handleDriver env (handleInterceptor env s t).s
            (handleInterceptor env s t).clock).reraise = some v := by rw [hr1, hf]; rfl
        rw [runSession_driverCrash env s t v hrr henq h1]
        show countCB ((handleInterceptor env s t).tr ++ _) ≤ 1
        rw [countCB_append, countCB_handleInterceptor, countCB_handleDriver]
        exact Nat.zero_le 1
      | false =>
        have h1 : (handleDriver env (handleInterceptor env s t).s
            (handleInterceptor env s t).clock).reraise = none := by rw [hr1, hf]; rfl
        have h2 : (handleDriver env (handleInterceptor env s t).s
            (handleInterceptor env s t).clock).enq = none := by rw [hr1]
        rw [runSession_driverStuck env s t hrr henq h1 h2]
        show countCB ((handleInterceptor env s t).tr ++ _) ≤ 1
        rw [countCB_append, countCB_handleInterceptor, countCB_handleDriver]
        exact Nat.zero_le 1
  | dropped i =>
    have hr0 := handleInterceptor_dropped env s t i hex
    have hrr : (handleInterceptor env s t).reraise = none := by rw [hr0]
    have henq : (handleInterceptor env s t).enq = some 2 := by rw [hr0]
    rw [runSession_dropPath env s t hrr henq]
    show countCB ((handleInterceptor env s t).tr ++ _) ≤ 1
    rw [countCB_append, countCB_handleInterceptor, countCB_handleOutput]
  | panicked v =>
    have hr0 := handleInterceptor_panicked env s t v hex
    cases hf : env.failFast with
    | true =>
      have hrr : (handleInterceptor env s t).reraise = some v := by rw [hr0, hf]; rfl
      rw [runSession_crash env s t v hrr]
      show countCB (handleInterceptor env s t).tr ≤ 1
      rw [countCB_handleInterceptor]
      exact Nat.zero_le 1
    | false =>
      have hrr : (handleInterceptor env s t).reraise = none := by rw [hr0, hf]; rfl
      have henq : (handleInterceptor env s t).enq = none := by rw [hr0]
      rw [runSession_stuck env s t hrr henq]
      show countCB (handleInterceptor env s t).tr ≤ 1
      rw [countCB_handleInterceptor]
      exact Nat.zero_le 1

/-! ### Claim theorems -/

/-- C9: the invoker builds the session directly from the submitted trigger
event: the inbound capture equals the event's topic and data, the outbound
carries the same topic with an initially empty data mapping, the session
topic and creation timestamp come from the event and the submission time,
and the session is enqueued only on stage 0. -/
theorem invoker_session_intake (ev : TriggerEvent) (now : Nat) :
    (invoker ev now).1.inbound.topic = ev.topic
    ∧ (invoker ev now).1.inbound.data = ev.data
    ∧ (invoker ev now).1.outbound.topic = ev.topic
    ∧ (invoker ev now).1.outbound.data = []
    ∧ (invoker ev now).1.topic = ev.topic
    ∧ (invoker ev now).1.attributes = []
    ∧ (invoker ev now).1.timestamp = now
    ∧ (invoker ev now).2 = 0 :=
  ⟨rfl, rfl, rfl, rfl, rfl, rfl, rfl, rfl⟩

/-- C10: every stage handler emits the "<Stage>.Start" attribute write as
its very first action, records `(stageName st ++ ".Start")` as an absolute
timestamp (`AttrVal.time`), and on every exit path (normal completion,
drop short-circuit, and panic) the deferred epilogue records
`(stageName st ++ ".End")` as the elapsed duration since session creation
(`AttrVal.dur`, the `Escaped()` value), never a timestamp. -/
theorem stage_timing_attributes (st : Stage) (env : Env) (s : Session) (t : Nat) :
    (runStage st env s t).tr.head? = some (Ev.aStart st)
    ∧ Ev.aEnd st ∈ (runStage st env s t).tr
    ∧ (stageName st ++ ".Start", AttrVal.time t) ∈ (runStage st env s t).s.attributes
    ∧ (stageName st ++ ".End", AttrVal.dur ((runStage st env s t).clock - s.timestamp))
        ∈ (runStage st env s t).s.attributes := by
  cases st with
  | interceptor =>
    have hts : (interceptorChain env s t).s.timestamp = s.timestamp := by
      simp only [interceptorChain]
      rw [runChain_timestamp, timestamp_addAttr]
    have hstart : ("Interceptor.Start", AttrVal.time t)
        ∈ (interceptorChain env s t).s.attributes := by
      simp only [interceptorChain]
      exact runChain_attrs_mono _ _ _ _ _ (attrs_addAttr_self s _ _)
    cases hex : (interceptorChain env s t).exit with
    | completed =>
      rw [runStage, handleInterceptor_completed env s t hex]
      refine ⟨rfl, by simp, ?_, ?_⟩
      · exact attrs_addAttr _ _ _ _ hstart
      · rw [show stageName Stage.interceptor ++ ".End" = "Interceptor.End" from rfl]
        rw [← hts]
        exact attrs_addAttr_self _ _ _
    | dropped i =>
      rw [runStage, handleInterceptor_dropped env s t i hex]
      refine ⟨rfl, by simp, ?_, ?_⟩
      · exact attrs_addAttr _ _ _ _ hstart
      · rw [show stageName Stage.interceptor ++ ".End" = "Interceptor.End" from rfl]
        rw [← hts]
        exact attrs_addAttr_self _ _ _
    | panicked v =>
      rw [runStage, handleInterceptor_panicked env s t v hex]
      refine ⟨rfl, by cases isErrPanic v <;> simp, ?_, ?_⟩
      · exact attrs_addAttr _ _ _ _ hstart
      · rw [show stageName Stage.interceptor ++ ".End" = "Interceptor.End" from rfl]
        rw [← hts]
        exact attrs_addAttr_self _ _ _
  | driver =>
    have hts : (driverLoop env s t).s.timestamp = s.timestamp := by
      simp only [driverLoop]
      rw [runDrivers_timestamp, timestamp_addAttr]
    have hstart : ("Driver.Start", AttrVal.time t)
        ∈ (driverLoop env s t).s.attributes := by
      simp only [driverLoop]
      exact runDrivers_attrs_mono _ _ _ _ _ (attrs_addAttr_self s _ _)
    cases hp : (driverLoop env s t).panicv with
    | none =>
      rw [runStage, handleDriver_ok env s t hp]
      refine ⟨rfl, by simp, ?_, ?_⟩
      · exact attrs_addAttr _ _ _ _ hstart
      · rw [show stageName Stage.driver ++ ".End" = "Driver.End" from rfl]
        rw [← hts]
        exact attrs_addAttr_self _ _ _
    | some v =>
      rw [runStage, handleDriver_panicked env s t v hp]
      refine ⟨rfl, by cases isErrPanic v <;> simp, ?_, ?_⟩
      · exact attrs_addAttr _ _ _ _ hstart
      · rw [show stageName Stage.driver ++ ".End" = "Driver.End" from rfl]
        rw [← hts]
        exact attrs_addAttr_self _ _ _
  | output =>
    refine ⟨rfl, by simp [runStage, handleOutput], ?_, ?_⟩
    · exact attrs_addAttr _ _ _ _ (attrs_addAttr_self s _ _)
    · exact attrs_addAttr_self _ _ _

/-- C7: `Start` issues lifecycle calls in the role order Plugins,
Pipelines, Drivers, Triggers, and `Stop` in the role order Triggers,
Drivers, Pipelines, Plugins (each trace is ordered by the role rank), and
within each role a call is issued for every registered component. -/
theorem lifecycle_start_stop_order (reg : Registration) :
    (engineStart reg).Pairwise (fun a b => startRank (roleOf a) ≤ startRank (roleOf b))
    ∧ (engineStop reg).Pairwise (fun a b => stopRank (roleOf a) ≤ stopRank (roleOf b))
    ∧ (∀ i ∈ reg.plugins, LifeEv.call .plugin true i ∈ engineStart reg)
    ∧ (∀ p ∈ reg.pipelines, LifeEv.call .pipeline true p.2 ∈ engineStart reg)
    ∧ (∀ i ∈ reg.drivers, LifeEv.call .driver true i ∈ engineStart reg)
    ∧ (∀ i ∈ reg.triggers, LifeEv.call .trigger true i ∈ engineStart reg)
    ∧ (∀ i ∈ reg.triggers, LifeEv.call .trigger false i ∈ engineStop reg)
    ∧ (∀ i ∈ reg.drivers, LifeEv.call .driver false i ∈ engineStop reg)
    ∧ (∀ p ∈ reg.pipelines, LifeEv.call .pipeline false p.2 ∈ engineStop reg)
    ∧ (∀ i ∈ reg.plugins, LifeEv.call .plugin false i ∈ engineStop reg) := by
  have hP := roleOf_mem_map Role.plugin true reg.plugins
  have hL := roleOf_mem_map_pipeline true reg.pipelines
  have hD := roleOf_mem_map Role.driver true reg.drivers
  have hT := roleOf_mem_map Role.trigger true reg.triggers
  have hT' := roleOf_mem_map Role.trigger false reg.triggers
  have hD' := roleOf_mem_map Role.driver false reg.drivers
  have hL' := roleOf_mem_map_pipeline false reg.pipelines
  have hP' := roleOf_mem_map Role.plugin false reg.plugins
  refine ⟨?_, ?_, ?_, ?_, ?_, ?_, ?_, ?_, ?_, ?_⟩
  · refine pairwise_rank_append _ _ (pairwise_rank_append _ _
      (pairwise_rank_append _ _ (pairwise_of_const_role _ _ hP)
        (pairwise_of_const_role _ _ hL) ?_)
      (pairwise_of_const_role _ _ hD) ?_)
      (pairwise_of_const_role _ _ hT) ?_
    · intro a ha b hb
      rw [hP a ha, hL b hb]
      decide
    · intro a ha b hb
      rcases List.mem_append.mp ha with ha' | ha'
      · rw [hP a ha', hD b hb]; decide
      · rw [hL a ha', hD b hb]; decide
    · intro a ha b hb
      rcases List.mem_append.mp ha with ha' | ha'
      · rcases List.mem_append.mp ha' with ha'' | ha''
        · rw [hP a ha'', hT b hb]; decide
        · rw [hL a ha'', hT b hb]; decide
      · rw [hD a ha', hT b hb]; decide
  · refine pairwise_rank_append _ _ (pairwise_rank_append _ _
      (pairwise_rank_append _ _ (pairwise_of_const_role _ _ hT')
        (pairwise_of_const_role _ _ hD') ?_)
      (pairwise_of_const_role _ _ hL') ?_)
      (pairwise_of_const_role _ _ hP') ?_
    · intro a ha b hb
      rw [hT' a ha, hD' b hb]
      decide
    · intro a ha b hb
      rcases List.mem_append.mp ha with ha' | ha'
      · rw [hT' a ha', hL' b hb]; decide
      · rw [hD' a ha', hL' b hb]; decide
    · intro a ha b hb
      rcases List.mem_append.mp ha with ha' | ha'
      · rcases List.mem_append.mp ha' with ha'' | ha''
        · rw [hT' a ha'', hP' b hb]; decide
        · rw [hD' a ha'', hP' b hb]; decide
      · rw [hL' a ha', hP' b hb]; decide
  · intro i hi
    exact List.mem_append_left _ (List.mem_append_left _
      (List.mem_append_left _ (List.mem_map_of_mem _ hi)))
  · intro p hp
    exact List.mem_append_left _ (List.mem_append_left _
      (List.mem_append_right _ (List.mem_map_of_mem _ hp)))
  · intro i hi
    exact List.mem_append_left _ (List.mem_append_right _ (List.mem_map_of_mem _ hi))
  · intro i hi
    exact List.mem_append_right _ (List.mem_map_of_mem _ hi)
  · intro i hi
    exact List.mem_append_left _ (List.mem_append_left _
      (List.mem_append_left _ (List.mem_map_of_mem _ hi)))
  · intro i hi
    exact List.mem_append_left _ (List.mem_append_left _
      (List.mem_append_right _ (List.mem_map_of_mem _ hi)))
  · intro p hp
    exact List.mem_append_left _ (List.mem_append_right _ (List.mem_map_of_mem _ hp))
  · intro i hi
    exact List.mem_append_right _ (List.mem_map_of_mem _ hi)

/-- Witness for C7 at a concrete registration. -/
theorem lifecycle_start_stop_order_witness :
    (7 ∈ [7]) ∧ LifeEv.call Role.plugin true 7
      ∈ engineStart ⟨[7], [("modbus", 1)], [2], [3]⟩ :=
  ⟨by decide,
   (lifecycle_start_stop_order ⟨[7], [("modbus", 1)], [2], [3]⟩).2.2.1 7 (by decide)⟩

/-- C2 (comparator modelled from the spec): matching interceptors execute
in ascending priority order.  If `a` and `b` both match the session topic,
`a`'s priority is numerically lower, and `b` was invoked, then `a` was
invoked strictly earlier in the interceptor-stage trace. -/
theorem interceptor_priority_ascending (env : Env) (s : Session) (t : Nat)
    (a b : Interceptor)
    (hnd : (env.interceptors.map Interceptor.id).Nodup)
    (ha : a ∈ env.interceptors) (hb : b ∈ env.interceptors)
    (hma : anyTopicMatches a.topicExpr s.topic = true)
    (hmb : anyTopicMatches b.topicExpr s.topic = true)
    (hab : a.priority < b.priority)
    (hcb : Ev.icall b.id ∈ (handleInterceptor env s t).tr) :
    Ev.icall a.id ∈ (handleInterceptor env s t).tr
    ∧ precedes a.id b.id (calledIds (handleInterceptor env s t).tr) := by
  have hpw := pairwise_sortByPri (matchingInterceptors env s.topic)
  have haL : a ∈ sortByPri (matchingInterceptors env s.topic) :=
    (mem_sortByPri a _).mpr (List.mem_filter.mpr ⟨ha, hma⟩)
  obtain ⟨k, hk, hc, hfull⟩ := runChain_calledIds env.failFast
    (sortByPri (matchingInterceptors env s.topic))
    (addAttr s "Interceptor.Start" (AttrVal.time t)) t
  have hctr : calledIds (interceptorChain env s t).tr
      = ((sortByPri (matchingInterceptors env s.topic)).take k).map Interceptor.id := by
    simp only [interceptorChain]
    exact hc
  have hbid : b.id ∈ calledIds (handleInterceptor env s t).tr := (mem_calledIds _ _).mpr hcb
  rw [calledIds_handleInterceptor, hctr] at hbid
  obtain ⟨b', hb't, hb'id⟩ := List.mem_map.mp hbid
  have hb'env : b' ∈ env.interceptors :=
    List.mem_of_mem_filter ((mem_sortByPri b' _).mp (List.mem_of_mem_take hb't))
  have hb'b : b' = b := id_inj_of_nodup env.interceptors hnd b' b hb'env hb hb'id
  subst hb'b
  have hat : a ∈ (sortByPri (matchingInterceptors env s.topic)).take k :=
    mem_take_of_lt_pri _ hpw k a b' haL hb't hab
  have htpw : ((sortByPri (matchingInterceptors env s.topic)).take k).Pairwise
      (fun x y => x.priority ≤ y.priority) :=
    hpw.sublist (List.take_sublist k _)
  obtain ⟨l1, l2, l3, hsp⟩ := pairwise_mem_split _ htpw a b' hat hb't hab
  constructor
  · rw [icall_handleInterceptor_iff, ← mem_calledIds, hctr]
    exact List.mem_map_of_mem _ hat
  · rw [calledIds_handleInterceptor, hctr, hsp]
    exact ⟨l1.map Interceptor.id, l2.map Interceptor.id, l3.map Interceptor.id, by simp⟩

/-- Witness for C2 on the spec's [10, 5, 20] priority example. -/
theorem interceptor_priority_ascending_witness :
    (c2env.interceptors.map Interceptor.id).Nodup
    ∧ c2i5 ∈ c2env.interceptors
    ∧ c2i20 ∈ c2env.interceptors
    ∧ anyTopicMatches c2i5.topicExpr sessX.topic = true
    ∧ c2i5.priority < c2i20.priority
    ∧ Ev.icall c2i20.id ∈ (handleInterceptor c2env sessX 0).tr
    ∧ (Ev.icall c2i5.id ∈ (handleInterceptor c2env sessX 0).tr
        ∧ precedes c2i5.id c2i20.id (calledIds (handleInterceptor c2env sessX 0).tr)) :=
  ⟨by decide,
   show c2i5 ∈ [c2i10, c2i5, c2i20] from List.mem_cons_of_mem _ (List.mem_cons_self _ _),
   show c2i20 ∈ [c2i10, c2i5, c2i20] from
     List.mem_cons_of_mem _ (List.mem_cons_of_mem _ (List.mem_cons_self _ _)),
   by decide, by decide, by decide,
   interceptor_priority_ascending c2env sessX 0 c2i5 c2i20 (by decide)
     (show c2i5 ∈ [c2i10, c2i5, c2i20] from List.mem_cons_of_mem _ (List.mem_cons_self _ _))
     (show c2i20 ∈ [c2i10, c2i5, c2i20] from
       List.mem_cons_of_mem _ (List.mem_cons_of_mem _ (List.mem_cons_self _ _)))
     (by decide) (by decide) (by decide) (by decide)⟩

/-- C1 (dispatcher composition modelled from the spec): when a matching
interceptor returns the drop sentinel, the session carries
outbound["error"] = "InterceptorDropped", no interceptor is invoked after
the drop, the session is sent directly to the output stage (stage 2) and
its completion callback fires, and it never reaches any driver: no driver
is invoked and the driver stage never starts. -/
theorem interceptor_drop_short_circuit (env : Env) (s : Session) (t : Nat) (k : Nat)
    (hd : Ev.dropSig k ∈ (runSession env s t).tr) :
    (∃ pre post, (runSession env s t).tr = pre ++ Ev.dropSig k :: post
        ∧ ∀ j, Ev.icall j ∉ post)
    ∧ (∀ j, Ev.dcall j ∉ (runSession env s t).tr)
    ∧ Ev.aStart .driver ∉ (runSession env s t).tr
    ∧ lookupF (runSession env s t).s.outbound.data "error"
        = some (GVal.s "InterceptorDropped")
    ∧ Ev.enq 2 ∈ (runSession env s t).tr
    ∧ countCB (runSession env s t).tr = 1 := by
  cases hex : (interceptorChain env s t).exit with
  | completed =>
    exfalso
    have hr0 := handleInterceptor_completed env s t hex
    have hrr : (handleInterceptor env s t).reraise = none := by rw [hr0]
    have henq : (handleInterceptor env s t).enq = some 1 := by rw [hr0]
    have hnoti : Ev.dropSig k ∉ (handleInterceptor env s t).tr := by
      intro h
      obtain ⟨_, _, _, hex'⟩ := interceptorChain_dropSig env s t k
        (dropSig_handleInterceptor env s t k h)
      rw [hex] at hex'
      exact ChainExit.noConfusion hex'
    cases hp : (driverLoop env (handleInterceptor env s t).s
        (handleInterceptor env s t).clock).panicv with
    | none =>
      have hr1 := handleDriver_ok env _ _ hp
      have h1 : (handleDriver env (handleInterceptor env s t).s
          (handleInterceptor env s t).clock).reraise = none := by rw [hr1]
      have h2 : (handleDriver env (handleInterceptor env s t).s
          (handleInterceptor env s t).clock).enq = some 2 := by rw [hr1]
      rw [runSession_full env s t hrr henq h1 h2] at hd
      rcases List.mem_append.mp hd with hd' | hd'
      · rcases List.mem_append.mp hd' with hd'' | hd''
        · exact hnoti hd''
        · exact dropSig_not_handleDriver env _ _ k hd''
      · rw [handleOutput_tr] at hd'
        simp at hd'
    | some v =>
      have hr1 := handleDriver_panicked env _ _ v hp
      cases hf : env.failFast with
      | true =>
        have h1 : (handleDriver env (handleInterceptor env s t).s
            (handleInterceptor env s t).clock).reraise = some v := by rw [hr1, hf]; rfl
        rw [runSession_driverCrash env s t v hrr henq h1] at hd
        rcases List.mem_append.mp hd with hd' | hd'
        · exact hnoti hd'
        · exact dropSig_not_handleDriver env _ _ k hd'
      | false =>
        have h1 : (handleDriver env (handleInterceptor env s t).s
            (handleInterceptor env s t).clock).reraise = none := by rw [hr1, hf]; rfl
        have h2 : (handleDriver env (handleInterceptor env s t).s
            (handleInterceptor env s t).clock).enq = none := by rw [hr1]
        rw [runSession_driverStuck env s t hrr henq h1 h2] at hd
        rcases List.mem_append.mp hd with hd' | hd'
        · exact hnoti hd'
        · exact dropSig_not_handleDriver env _ _ k hd'
  | panicked v =>
    exfalso
    have hr0 := handleInterceptor_panicked env s t v hex
    have hnoti : Ev.dropSig k ∉ (handleInterceptor env s t).tr := by
      intro h
      obtain ⟨_, _, _, hex'⟩ := interceptorChain_dropSig env s t k
        (dropSig_handleInterceptor env s t k h)
      rw [hex] at hex'
      exact ChainExit.noConfusion hex'
    cases hf : env.failFast with
    | true =>
      have hrr : (handleInterceptor env s t).reraise = some v := by rw [hr0, hf]; rfl
      rw [runSession_crash env s t v hrr] at hd
      exact hnoti hd
    | false =>
      have hrr : (handleInterceptor env s t).reraise = none := by rw [hr0, hf]; rfl
      have henq : (handleInterceptor env s t).enq = none := by rw [hr0]
      rw [runSession_stuck env s t hrr henq] at hd
      exact hnoti hd
  | dropped i =>
    have hr0 := handleInterceptor_dropped env s t i hex
    have hrr : (handleInterceptor env s t).reraise = none := by rw [hr0]
    have henq : (handleInterceptor env s t).enq = some 2 := by rw [hr0]
    have hs := runSession_dropPath env s t hrr henq
    rw [hs] at hd
    have hd0 : Ev.dropSig k ∈ (handleInterceptor env s t).tr := by
      rcases List.mem_append.mp hd with hd' | hd'
      · exact hd'
      · rw [handleOutput_tr] at hd'
        simp at hd'
    obtain ⟨pre, hcp, hnp, hex'⟩ := interceptorChain_dropSig env s t k
      (dropSig_handleInterceptor env s t k hd0)
    rw [hex] at hex'
    have hik : i = k := by
      cases hex'
      rfl
    subst hik
    refine ⟨?_, ?_, ?_, ?_, ?_, ?_⟩
    · refine ⟨Ev.aStart .interceptor :: pre,
        Ev.enq 2 :: Ev.aEnd .interceptor
          :: (handleOutput env (handleInterceptor env s t).s
                (handleInterceptor env s t).clock).tr, ?_, ?_⟩
      · rw [hs]
        show (handleInterceptor env s t).tr
            ++ (handleOutput env (handleInterceptor env s t).s
                  (handleInterceptor env s t).clock).tr = _
        rw [hr0]
        show Ev.aStart .interceptor :: ((interceptorChain env s t).tr ++ [Ev.enq 2])
            ++ [Ev.aEnd .interceptor] ++ _ = _
        rw [hcp]
        simp
      · intro j hj
        rw [handleOutput_tr] at hj
        simp at hj
    · intro j
      rw [hs]
      intro h
      rcases List.mem_append.mp h with h' | h'
      · exact dcall_not_handleInterceptor env s t j h'
      · rw [handleOutput_tr] at h'
        simp at h'
    · rw [hs]
      intro h
      rcases List.mem_append.mp h with h' | h'
      · exact aStartDriver_not_handleInterceptor env s t h'
      · rw [handleOutput_tr] at h'
        simp at h'
    · rw [hs]
      show lookupF (handleOutput env (handleInterceptor env s t).s
          (handleInterceptor env s t).clock).s.outbound.data "error" = _
      rw [handleOutput_s_outbound]
      rw [hr0]
      show lookupF (interceptorChain env s t).s.outbound.data "error" = _
      exact interceptorChain_dropped_lookup env s t _ hex
    · rw [hs]
      show Ev.enq 2 ∈ (handleInterceptor env s t).tr
          ++ (handleOutput env (handleInterceptor env s t).s
                (handleInterceptor env s t).clock).tr
      rw [hr0]
      simp
    · rw [hs]
      show countCB ((handleInterceptor env s t).tr
          ++ (handleOutput env (handleInterceptor env s t).s
                (handleInterceptor env s t).clock).tr) = 1
      rw [countCB_append, countCB_handleInterceptor, countCB_handleOutput]

/-- Witness for C1: a dropping interceptor at priority 10 with a matching
interceptor at priority 20 and a matching driver registered. -/
theorem interceptor_drop_short_circuit_witness :
    Ev.dropSig 0 ∈ (runSession c1env sessX 0).tr
    ∧ ((∃ pre post, (runSession c1env sessX 0).tr = pre ++ Ev.dropSig 0 :: post
          ∧ ∀ j, Ev.icall j ∉ post)
       ∧ (∀ j, Ev.dcall j ∉ (runSession c1env sessX 0).tr)
       ∧ Ev.aStart .driver ∉ (runSession c1env sessX 0).tr
       ∧ lookupF (runSession c1env sessX 0).s.outbound.data "error"
           = some (GVal.s "InterceptorDropped")
       ∧ Ev.enq 2 ∈ (runSession c1env sessX 0).tr
       ∧ countCB (runSession c1env sessX 0).tr = 1) :=
  ⟨by decide, interceptor_drop_short_circuit c1env sessX 0 0 (by decide)⟩

/-- C4 counterexample: with fail-fast disabled, a session whose single
matching interceptor panics never has its completion callback invoked at
all (the claim requires exactly one invocation for every session). -/
theorem callback_skipped_on_panic_cex :
    countCB (runSession c4envcex sessX 0).tr = 0 := by decide

/-- C4 (amended; dispatcher composition modelled from the spec): the
completion callback is invoked at most once per session and only by the
output-stage handler (interceptor and driver handlers never invoke it),
with the outbound data mapping as it stands when the output stage runs;
it is invoked exactly once whenever no component panics and fail-fast is
disabled. -/
theorem callback_once_only_output (env : Env) (s : Session) (t : Nat)
    (hff : env.failFast = false)
    (hip : ∀ it ∈ env.interceptors, ∀ s' v, (it.handle s').1 ≠ HandleRes.panicked v)
    (hdp : ∀ d ∈ env.drivers, ∀ s' v, (d.handle s').1 ≠ HandleRes.panicked v) :
    countCB (runSession env s t).tr = 1
    ∧ Ev.callback (runSession env s t).s.outbound.data ∈ (runSession env s t).tr
    ∧ (∀ env' s2 t2, countCB (handleInterceptor env' s2 t2).tr = 0)
    ∧ (∀ env' s2 t2, countCB (handleDriver env' s2 t2).tr = 0)
    ∧ (∀ env' s2 t2, countCB (runSession env' s2 t2).tr ≤ 1) := by
  have hmain : countCB (runSession env s t).tr = 1
      ∧ Ev.callback (runSession env s t).s.outbound.data ∈ (runSession env s t).tr := by
    rcases interceptorChain_no_panic env s t hff hip with hex | ⟨i, hex⟩
    · have hr0 := handleInterceptor_completed env s t hex
      have hrr : (handleInterceptor env s t).reraise = none := by rw [hr0]
      have henq : (handleInterceptor env s t).enq = some 1 := by rw [hr0]
      have hp := driverLoop_no_panic env (handleInterceptor env s t).s
        (handleInterceptor env s t).clock hff hdp
      have hr1 := handleDriver_ok env _ _ hp
      have h1 : (handleDriver env (handleInterceptor env s t).s
          (handleInterceptor env s t).clock).reraise = none := by rw [hr1]
      have h2 : (handleDriver env (handleInterceptor env s t).s
          (handleInterceptor env s t).clock).enq = some 2 := by rw [hr1]
      rw [runSession_full env s t hrr henq h1 h2]
      constructor
      · show countCB ((handleInterceptor env s t).tr ++ _ ++ _) = 1
        rw [countCB_append, countCB_append, countCB_handleInterceptor,
          countCB_handleDriver, countCB_handleOutput]
      · show Ev.callback ((handleOutput env _ _).s.outbound.data)
            ∈ (handleInterceptor env s t).tr ++ _ ++ _
        rw [handleOutput_s_outbound]
        refine List.mem_append_right _ ?_
        rw [handleOutput_tr]
        simp
    · have hr0 := handleInterceptor_dropped env s t i hex
      have hrr : (handleInterceptor env s t).reraise = none := by rw [hr0]
      have henq : (handleInterceptor env s t).enq = some 2 := by rw [hr0]
      rw [runSession_dropPath env s t hrr henq]
      constructor
      · show countCB ((handleInterceptor env s t).tr ++ _) = 1
        rw [countCB_append, countCB_handleInterceptor, countCB_handleOutput]
      · show Ev.callback ((handleOutput env _ _).s.outbound.data)
            ∈ (handleInterceptor env s t).tr ++ _
        rw [handleOutput_s_outbound]
        refine List.mem_append_right _ ?_
        rw [handleOutput_tr]
        simp
  exact ⟨hmain.1, hmain.2,
    fun env' s2 t2 => countCB_handleInterceptor env' s2 t2,
    fun env' s2 t2 => countCB_handleDriver env' s2 t2,
    fun env' s2 t2 => countCB_runSession_le_one env' s2 t2⟩

/-- Witness for C4 on a benign one-interceptor, one-driver environment. -/
theorem callback_once_only_output_witness :
    c4env.failFast = false
    ∧ (∀ it ∈ c4env.interceptors, ∀ s' v, (it.handle s').1 ≠ HandleRes.panicked v)
    ∧ (∀ d ∈ c4env.drivers, ∀ s' v, (d.handle s').1 ≠ HandleRes.panicked v)
    ∧ countCB (runSession c4env sessX 0).tr = 1 :=
  ⟨rfl,
   by
     intro it hit s' v
     rcases List.mem_singleton.mp hit with rfl
     simp [c4wi, okHandle],
   by
     intro d hd s' v
     rcases List.mem_singleton.mp hd with rfl
     simp [c4wd, okHandle],
   (callback_once_only_output c4env sessX 0 rfl
     (by
       intro it hit s' v
       rcases List.mem_singleton.mp hit with rfl
       simp [c4wi, okHandle])
     (by
       intro d hd s' v
       rcases List.mem_singleton.mp hd with rfl
       simp [c4wd, okHandle])).1⟩

/-- C8 counterexample: `checkRecover` logs the recovered value only when
the Go type assertion `r.(error)` succeeds, so a panic with a non-error
value is recovered and swallowed but never logged, while the claim says
every recovered panic is logged. -/
theorem panic_unlogged_cex :
    (handleInterceptor c8env sessX 0).recovered = some (PanicVal.nonError 7)
    ∧ Ev.logPanic ∉ (handleInterceptor c8env sessX 0).tr := by decide

/-- C8 (amended): a panic inside a stage handler is recovered at that
handler's boundary; the session is not enqueued onto any further stage;
the panic is re-raised exactly when fail-fast is enabled; and it is logged
if and only if the recovered value is an error-typed value. -/
theorem stage_panic_recovery (st : Stage) (env : Env) (s : Session) (t : Nat) (v : PanicVal)
    (h : (runStage st env s t).recovered = some v) :
    (runStage st env s t).reraise = (if env.failFast then some v else none)
    ∧ (runStage st env s t).enq = none
    ∧ (Ev.logPanic ∈ (runStage st env s t).tr ↔ isErrPanic v = true) := by
  cases st with
  | interceptor =>
    cases hex : (interceptorChain env s t).exit with
    | completed =>
      rw [runStage, handleInterceptor_completed env s t hex] at h
      exact Option.noConfusion h
    | dropped i =>
      rw [runStage, handleInterceptor_dropped env s t i hex] at h
      exact Option.noConfusion h
    | panicked w =>
      rw [runStage, handleInterceptor_panicked env s t w hex] at h
      have hw : w = v := Option.some.inj h
      subst hw
      rw [runStage, handleInterceptor_panicked env s t w hex]
      refine ⟨rfl, rfl, ?_⟩
      cases hv : isErrPanic w with
      | true => simp
      | false =>
        simp only [Bool.false_eq_true, if_false, List.append_nil, iff_false]
        intro h'
        rcases List.mem_append.mp h' with h'' | h''
        · rcases List.mem_cons.mp h'' with heq | h3
          · exact Ev.noConfusion heq
          · have := runChain_events env.failFast
              (sortByPri (matchingInterceptors env s.topic))
              (addAttr s "Interceptor.Start" (.time t)) t _ h3
            simp [chainEv] at this
        · exact Ev.noConfusion (List.mem_singleton.mp h'')
  | driver =>
    cases hp : (driverLoop env s t).panicv with
    | none =>
      rw [runStage, handleDriver_ok env s t hp] at h
      exact Option.noConfusion h
    | some w =>
      rw [runStage, handleDriver_panicked env s t w hp] at h
      have hw : w = v := Option.some.inj h
      subst hw
      rw [runStage, handleDriver_panicked env s t w hp]
      refine ⟨rfl, rfl, ?_⟩
      cases hv : isErrPanic w with
      | true => simp
      | false =>
        simp only [Bool.false_eq_true, if_false, List.append_nil, iff_false]
        intro h'
        rcases List.mem_append.mp h' with h'' | h''
        · rcases List.mem_cons.mp h'' with heq | h3
          · exact Ev.noConfusion heq
          · have := runDrivers_events env.failFast env.drivers
              (addAttr s "Driver.Start" (.time t)) t _ h3
            simp [drvEv] at this
        · exact Ev.noConfusion (List.mem_singleton.mp h'')
  | output => exact Option.noConfusion h

/-- Witness for C8 with an error-typed panic value. -/
theorem stage_panic_recovery_witness :
    (runStage .interceptor c8wenv sessX 0).recovered
        = some (PanicVal.errVal (GoError.other 3))
    ∧ ((runStage .interceptor c8wenv sessX 0).reraise
          = (if c8wenv.failFast then some (PanicVal.errVal (GoError.other 3)) else none)
       ∧ (runStage .interceptor c8wenv sessX 0).enq = none
       ∧ (Ev.logPanic ∈ (runStage .interceptor c8wenv sessX 0).tr
            ↔ isErrPanic (PanicVal.errVal (GoError.other 3)) = true)) :=
  ⟨by decide, stage_panic_recovery .interceptor c8wenv sessX 0 _ (by decide)⟩

theorem interceptorChain_completed (env : Env) (s : Session) (t : Nat)
    (hff : env.failFast = false)
    (hben : ∀ it ∈ env.interceptors, ∀ s',
        (it.handle s').1 ≠ HandleRes.ret (some GoError.dropped)
        ∧ ∀ v, (it.handle s').1 ≠ HandleRes.panicked v) :
    (interceptorChain env s t).exit = ChainExit.completed := by
  simp only [interceptorChain, hff]
  exact runChain_completed _ _ _
    (fun it h s' => hben it (List.mem_of_mem_filter ((mem_sortByPri it _).mp h)) s')

theorem interceptorChain_err_logged (env : Env) (s : Session) (t : Nat) (e : Interceptor)
    (hff : env.failFast = false)
    (hben : ∀ it ∈ env.interceptors, ∀ s',
        (it.handle s').1 ≠ HandleRes.ret (some GoError.dropped)
        ∧ ∀ v, (it.handle s').1 ≠ HandleRes.panicked v)
    (he : e ∈ env.interceptors)
    (hme : anyTopicMatches e.topicExpr s.topic = true)
    (herr : ∀ s', ∃ c, (e.handle s').1 = HandleRes.ret (some (GoError.other c))) :
    Ev.ilogErr e.id ∈ (interceptorChain env s t).tr := by
  simp only [interceptorChain, hff]
  exact runChain_err_logged _ _ _ e
    (fun it h s' => hben it (List.mem_of_mem_filter ((mem_sortByPri it _).mp h)) s')
    ((mem_sortByPri e _).mpr (List.mem_filter.mpr ⟨he, hme⟩)) herr

theorem interceptorChain_calls_all (env : Env) (s : Session) (t : Nat)
    (hex : (interceptorChain env s t).exit = ChainExit.completed) :
    calledIds (interceptorChain env s t).tr
      = (sortByPri (matchingInterceptors env s.topic)).map Interceptor.id := by
  obtain ⟨k, hk, hc, hfull⟩ := runChain_calledIds env.failFast
    (sortByPri (matchingInterceptors env s.topic))
    (addAttr s "Interceptor.Start" (AttrVal.time t)) t
  have hkl : k = (sortByPri (matchingInterceptors env s.topic)).length := by
    apply hfull
    simpa [interceptorChain] using hex
  subst hkl
  have hcc : calledIds (interceptorChain env s t).tr
      = ((sortByPri (matchingInterceptors env s.topic)).take
          (sortByPri (matchingInterceptors env s.topic)).length).map Interceptor.id := by
    simp only [interceptorChain]
    exact hc
  rw [hcc, List.take_length]

theorem driverLoop_calls (env : Env) (s : Session) (t : Nat)
    (hp : (driverLoop env s t).panicv = none) :
    dcalledIds (driverLoop env s t).tr
      = (env.drivers.filter (fun d => anyTopicMatches d.topicExpr s.topic)).map Driver.id := by
  have h' : (runDrivers env.failFast env.drivers
      (addAttr s "Driver.Start" (AttrVal.time t)) t).panicv = none := by
    simpa [driverLoop] using hp
  have hcall := runDrivers_calls env.failFast env.drivers
    (addAttr s "Driver.Start" (AttrVal.time t)) t h'
  simp only [topic_addAttr] at hcall
  simpa [driverLoop] using hcall

/-- C5 counterexample: with fail-fast enabled, a non-drop interceptor
error is logged but escalates through the panic-level logger, so the next
matching interceptor never executes and the session never reaches the
driver stage -- the claim says a non-drop error never diverts the
session. -/
theorem interceptor_error_failfast_cex :
    Ev.icall 1 ∉ (handleInterceptor c5envff sessX 0).tr
    ∧ (handleInterceptor c5envff sessX 0).enq = none
    ∧ Ev.ilogErr 0 ∈ (handleInterceptor c5envff sessX 0).tr := by decide

/-- C5 (amended): when fail-fast is disabled, a matching interceptor whose
`Handle` returns a non-drop error is logged, the whole matching chain
still executes, and the session is sent to the driver stage (stage 1). -/
theorem interceptor_error_continues (env : Env) (s : Session) (t : Nat) (e : Interceptor)
    (hff : env.failFast = false)
    (hben : ∀ it ∈ env.interceptors, ∀ s',
        (it.handle s').1 ≠ HandleRes.ret (some GoError.dropped)
        ∧ ∀ v, (it.handle s').1 ≠ HandleRes.panicked v)
    (he : e ∈ env.interceptors)
    (hme : anyTopicMatches e.topicExpr s.topic = true)
    (herr : ∀ s', ∃ c, (e.handle s').1 = HandleRes.ret (some (GoError.other c))) :
    Ev.ilogErr e.id ∈ (handleInterceptor env s t).tr
    ∧ (handleInterceptor env s t).enq = some 1
    ∧ calledIds (handleInterceptor env s t).tr
        = (sortByPri (matchingInterceptors env s.topic)).map Interceptor.id := by
  have hex := interceptorChain_completed env s t hff hben
  have hlog := interceptorChain_err_logged env s t e hff hben he hme herr
  refine ⟨?_, ?_, ?_⟩
  · rw [handleInterceptor_completed env s t hex]
    exact List.mem_append_left _ (List.mem_cons_of_mem _ (List.mem_append_left _ hlog))
  · rw [handleInterceptor_completed env s t hex]
  · rw [calledIds_handleInterceptor]
    exact interceptorChain_calls_all env s t hex

/-- Witness for C5 on a two-interceptor environment whose first
interceptor always errors. -/
theorem interceptor_error_continues_witness :
    c5env.failFast = false
    ∧ anyTopicMatches c5err.topicExpr sessX.topic = true
    ∧ (Ev.ilogErr c5err.id ∈ (handleInterceptor c5env sessX 0).tr
       ∧ (handleInterceptor c5env sessX 0).enq = some 1
       ∧ calledIds (handleInterceptor c5env sessX 0).tr
           = (sortByPri (matchingInterceptors c5env sessX.topic)).map Interceptor.id) :=
  ⟨rfl, by decide,
   interceptor_error_continues c5env sessX 0 c5err rfl
     (by
       intro it hit s'
       rcases List.mem_cons.mp hit with rfl | hit'
       · exact ⟨by simp [c5err, errHandle], fun v => by simp [c5err, errHandle]⟩
       · rcases List.mem_singleton.mp hit' with rfl
         exact ⟨by simp [c5ok, okHandle], fun v => by simp [c5ok, okHandle]⟩)
     (show c5err ∈ [c5err, c5ok] from List.mem_cons_self _ _)
     (by decide)
     (fun s' => ⟨1, rfl⟩)⟩

/-- C3 counterexample: with fail-fast enabled, a driver error escalates
through the panic-level logger, so a later matching driver never executes
and the session is not forwarded to the output stage -- the claim says the
iteration continues regardless of a returned error and always enqueues
output. -/
theorem driver_error_failfast_cex :
    Ev.dcall 1 ∉ (handleDriver c3envff sessX 0).tr
    ∧ (handleDriver c3envff sessX 0).enq = none
    ∧ Ev.dcall 0 ∈ (handleDriver c3envff sessX 0).tr := by decide

/-- C3 (amended): when fail-fast is disabled and no driver panics, the
driver handler invokes exactly the matching drivers, once each, in
registration order, regardless of returned errors, and then sends the
session to the output stage (stage 2). -/
theorem driver_fanout_no_short_circuit (env : Env) (s : Session) (t : Nat)
    (hff : env.failFast = false)
    (hdp : ∀ d ∈ env.drivers, ∀ s' v, (d.handle s').1 ≠ HandleRes.panicked v) :
    dcalledIds (handleDriver env s t).tr
      = (env.drivers.filter (fun d => anyTopicMatches d.topicExpr s.topic)).map Driver.id
    ∧ (handleDriver env s t).enq = some 2
    ∧ Ev.enq 2 ∈ (handleDriver env s t).tr := by
  have hp := driverLoop_no_panic env s t hff hdp
  have hr1 := handleDriver_ok env s t hp
  refine ⟨?_, by rw [hr1], ?_⟩
  · rw [dcalledIds_handleDriver]
    exact driverLoop_calls env s t hp
  · rw [hr1]
    simp

/-- Witness for C3 on two matching drivers whose first driver errors. -/
theorem driver_fanout_no_short_circuit_witness :
    c3env.failFast = false
    ∧ (dcalledIds (handleDriver c3env sessX 0).tr
         = (c3env.drivers.filter
             (fun d => anyTopicMatches d.topicExpr sessX.topic)).map Driver.id
       ∧ (handleDriver c3env sessX 0).enq = some 2
       ∧ Ev.enq 2 ∈ (handleDriver c3env sessX 0).tr) :=
  ⟨rfl,
   driver_fanout_no_short_circuit c3env sessX 0 rfl
     (by
       intro d hd s' v
       rcases List.mem_cons.mp hd with rfl | hd'
       · simp [c3d0, errHandle]
       · rcases List.mem_singleton.mp hd' with rfl
         simp [c3d1, okHandle])⟩

/-- C6 counterexample: a drop short-circuit leaves a later matching
interceptor uninvoked, so the set of invoked components is a strict
subset of the matching set -- the claim requires equality for every
session. -/
theorem routing_drop_cex :
    anyTopicMatches c6ok.topicExpr sessX.topic = true
    ∧ Ev.icall c6ok.id ∉ (runSession c6env sessX 0).tr := by decide

/-- C6 (amended): `anyTopicMatches` is true iff some expression matches
(so an empty expression list never fires); every invoked interceptor or
driver is a registered, matching one; and whenever the interceptor chain
completes (session sent to stage 1) every matching interceptor was
invoked, and whenever the driver stage completes (session sent to
stage 2) every matching driver was invoked. -/
theorem routing_correctness (env : Env) (s : Session) (t : Nat) :
    (∀ (exprs : List (String → Bool)) (topic : String),
        anyTopicMatches exprs topic = true ↔ ∃ f ∈ exprs, f topic = true)
    ∧ (∀ i, Ev.icall i ∈ (handleInterceptor env s t).tr →
        ∃ it ∈ env.interceptors, it.id = i
          ∧ anyTopicMatches it.topicExpr s.topic = true)
    ∧ (∀ i, Ev.dcall i ∈ (handleDriver env s t).tr →
        ∃ d ∈ env.drivers, d.id = i ∧ anyTopicMatches d.topicExpr s.topic = true)
    ∧ ((handleInterceptor env s t).enq = some 1 →
        ∀ it ∈ env.interceptors, anyTopicMatches it.topicExpr s.topic = true →
          Ev.icall it.id ∈ (handleInterceptor env s t).tr)
    ∧ ((handleDriver env s t).enq = some 2 →
        ∀ d ∈ env.drivers, anyTopicMatches d.topicExpr s.topic = true →
          Ev.dcall d.id ∈ (handleDriver env s t).tr) := by
  refine ⟨anyTopicMatches_iff, ?_, ?_, ?_, ?_⟩
  · intro i hi
    rw [icall_handleInterceptor_iff] at hi
    simp only [interceptorChain] at hi
    obtain ⟨it, hL, hid⟩ := runChain_icall_src _ _ _ _ i hi
    obtain ⟨hin, hmatch⟩ := List.mem_filter.mp ((mem_sortByPri it _).mp hL)
    exact ⟨it, hin, hid, hmatch⟩
  · intro i hi
    rw [dcall_handleDriver_iff] at hi
    simp only [driverLoop] at hi
    obtain ⟨d, hd, hid, hm⟩ := runDrivers_dcall_src _ _ _ _ i hi
    rw [topic_addAttr] at hm
    exact ⟨d, hd, hid, hm⟩
  · intro henq it hit hm
    cases hex : (interceptorChain env s t).exit with
    | dropped i =>
      rw [handleInterceptor_dropped env s t i hex] at henq
      exact absurd henq (by simp)
    | panicked v =>
      rw [handleInterceptor_panicked env s t v hex] at henq
      exact absurd henq (by simp)
    | completed =>
      rw [icall_handleInterceptor_iff, ← mem_calledIds,
        interceptorChain_calls_all env s t hex]
      exact List.mem_map_of_mem _
        ((mem_sortByPri it _).mpr (List.mem_filter.mpr ⟨hit, hm⟩))
  · intro henq d hd hm
    cases hp : (driverLoop env s t).panicv with
    | some v =>
      rw [handleDriver_panicked env s t v hp] at henq
      exact absurd henq (by simp)
    | none =>
      rw [dcall_handleDriver_iff, ← mem_dcalledIds, driverLoop_calls env s t hp]
      exact List.mem_map_of_mem _ (List.mem_filter.mpr ⟨hd, hm⟩)

/-- Witness for C6: with no drop in the chain, a matching interceptor is
invoked. -/
theorem routing_correctness_witness :
    (handleInterceptor c6wenv sessX 0).enq = some 1
    ∧ c6ok ∈ c6wenv.interceptors
    ∧ anyTopicMatches c6ok.topicExpr sessX.topic = true
    ∧ Ev.icall c6ok.id ∈ (handleInterceptor c6wenv sessX 0).tr :=
  ⟨by decide, show c6ok ∈ [c6ok] from List.mem_cons_self _ _, by decide,
   (routing_correctness c6wenv sessX 0).2.2.2.1 (by decide) c6ok
     (show c6ok ∈ [c6ok] from List.mem_cons_self _ _) (by decide)⟩

end Gecko
